import Mathlib

/-!
# gotraffic-police: health monitor, backend selector, connection relay, accept loop

A shallow embedding of `src/main.go` and `src/proxy.go`.

* A `*Backend` is a position in `p.backends` (the slice is built once by `NewProxyServer`
  from fresh allocations and never changed afterwards), so the mutable heap cells of the
  backends are the list `ProxyServer.backends` itself and a pointer is an index into it.
* Functions with side effects pass the `ProxyServer` through and return the list of
  effects they performed (log lines, dials, closes, goroutine starts), oldest first.
* The network is an explicit parameter (`Net`, `Errs`): whether a dial to an address
  succeeds, and which of the later `Close`/`io.Copy`/`CloseWrite` calls return an error.
* Goroutines are interleaved by an explicit schedule.
-/

namespace GoTraffic

/-! ## Data model (identical in `main.go` and `proxy.go`) -/

/-- `type Backend struct { Address string; Healthy bool; mu sync.RWMutex }`. -/
structure Backend where
  Address : String
  Healthy : Bool
deriving DecidableEq, Repr

/-- `func (b *Backend) IsHealthy() bool`. -/
def Backend.IsHealthy (b : Backend) : Bool := b.Healthy

/-- `func (b *Backend) SetHealthy(healthy bool)`. -/
def Backend.SetHealthy (b : Backend) (healthy : Bool) : Backend :=
  { b with Healthy := healthy }

/-- The two sockets of a session. -/
inductive Conn where
  | client
  | backend
deriving DecidableEq, Repr

/-- Observable effects. Log lines are named after what they report. -/
inductive Event where
  /-- `log.Printf("[✓] Backend %s UP", b.Address)`. -/
  | logUp (addr : String)
  /-- `log.Printf("[⚠] Backend %s DOWN", b.Address)`. -/
  | logDown (addr : String)
  /-- `log.Printf("[✗] No healthy backend for %s", ...)`. -/
  | logNoHealthy
  /-- `net.DialTimeout("tcp", backend.Address, ...)` issued by `handleConnection`
  for the backend at position `i`. -/
  | dial (i : Nat) (addr : String)
  /-- `log.Printf("[✗] Backend connect failed %s: %v", ...)`. -/
  | logConnectFailed (addr : String)
  /-- `log.Printf("[C] %s -> %s", ...)`. -/
  | logOpened (addr : String)
  /-- `wg.Add(n)`. -/
  | wgAdd (n : Nat)
  /-- `go func() { ... io.Copy(dst, src) ... }()`: copy task `task` is started. -/
  | go (task : Nat) (src dst : Conn)
  /-- `io.Copy(dst, src)` of copy task `task` has returned. -/
  | copied (task : Nat) (src dst : Conn)
  /-- `log.Printf("[✗] Error copying data ...")`. -/
  | logCopyError (task : Nat)
  /-- `c.(*net.TCPConn).CloseWrite()`. -/
  | closeWrite (task : Nat) (c : Conn)
  /-- `log.Printf("[✗] Error closing client write: %v", err)`. -/
  | logCloseWriteError (task : Nat)
  /-- `wg.Done()` of copy task `task`: the task has completed. -/
  | wgDone (task : Nat)
  /-- `wg.Wait()` has returned. -/
  | wgWait
  /-- `log.Printf("[✓] Connection closed %s", ...)`. -/
  | logClosed
  /-- `c.Close()`. -/
  | close (c : Conn)
  /-- `log.Printf("[✗] Error closing ... connection: %v", err)`. -/
  | logCloseError (c : Conn)
deriving DecidableEq, Repr

/-- The network as seen by the proxy. -/
structure Net where
  /-- `net.DialTimeout("tcp", addr, _)` returns `err == nil`. -/
  dialOk : String → Bool
  /-- `conn.Close()` on a health-probe connection to `addr` returns `err == nil`. -/
  probeCloseOk : String → Bool

/-- Apply the body of a goroutine that holds the pointer `i` to the cell it points to. -/
def onCell (f : Backend → Backend × List Event) (pool : List Backend) (i : Nat) :
    List Backend × List Event :=
  match pool[i]? with
  | none => (pool, [])
  | some b => (pool.set i (f b).1, (f b).2)

/-- A completed fan-out: the goroutine started for each position of `sched` runs, in the
order of `sched`. Each goroutine reads and writes only its own backend. -/
def fanOut (f : Backend → Backend × List Event) :
    List Nat → List Backend → List Backend × List Event
  | [], pool => (pool, [])
  | i :: rest, pool =>
    let r := onCell f pool i
    let r2 := fanOut f rest r.1
    (r2.1, r.2 ++ r2.2)

/-- The loop `for _, backend := range p.backends { if backend.IsHealthy() { return backend } }`
from position `i` on; `none` is `nil`. -/
def firstHealthy : List Backend → Nat → Option Nat
  | [], _ => none
  | b :: rest, i => if b.IsHealthy then some i else firstHealthy rest (i + 1)

/-- Which of the later socket operations of one session return an error. -/
structure Errs where
  /-- `io.Copy` of copy task `task` returns `err != nil`. -/
  copyErr : Nat → Bool
  /-- `CloseWrite()` in copy task `task` returns `err != nil`. -/
  closeWriteErr : Nat → Bool
  /-- `c.Close()` returns `err != nil`. -/
  closeErr : Conn → Bool

/-- Where the goroutine running `handleConnection` stands once the backend is connected. -/
inductive MainPc where
  | atWgAdd
  | atGo1
  | atGo2
  | atWait
  | atLogClosed
  | atCloseBackend
  | atCloseClient
  | returned
deriving DecidableEq, Repr

/-- Where one copy goroutine stands. -/
inductive TaskPc where
  | notStarted
  | atCopy
  | atCloseWrite
  | atDone
  | finished
deriving DecidableEq, Repr

/-- The goroutines of one session. -/
inductive Tid where
  | main
  | copy1
  | copy2
deriving DecidableEq, Repr

/-- One session: the program counters of its three goroutines, the counter of the
`sync.WaitGroup`, and the effects so far (oldest first). -/
structure Session where
  pc : MainPc
  t1 : TaskPc
  t2 : TaskPc
  wg : Nat
  trace : List Event
deriving DecidableEq, Repr

/-- Append one effect. -/
def Session.emit (s : Session) (e : Event) : Session :=
  { s with trace := s.trace ++ [e] }

/-- `backend.Address` through the pointer `i`. -/
def addressAt (pool : List Backend) (i : Nat) : String :=
  match pool[i]? with
  | some b => b.Address
  | none => ""

/-- `backend.SetHealthy(healthy)` through the pointer `i`. -/
def setHealthyAt (pool : List Backend) (i : Nat) (healthy : Bool) : List Backend :=
  match pool[i]? with
  | some b => pool.set i (b.SetHealthy healthy)
  | none => pool

/-- What one call of `listener.Accept()` returns: a connection, or an error together with
whether `ctx.Done()` is closed when the `select` that follows looks at it. -/
inductive Accepted where
  | conn (c : Nat)
  | err (cancelled : Bool)
deriving DecidableEq, Repr

/-- Effects of `Start`. -/
inductive StartEvent where
  /-- `net.Listen("tcp", p.listenAddr)`. -/
  | listen (addr : String)
  /-- The banner lines and one line per backend. -/
  | logBanner
  | logBackend (n : Nat) (addr : String)
  /-- `go p.healthCheck(ctx)`. -/
  | goHealthCheck
  /-- `time.Sleep(1 * time.Second)`. -/
  | sleep
  /-- `go func() { <-ctx.Done(); listener.Close() ... }()`. -/
  | goCloseOnDone
  /-- `listener.Accept()` is called. -/
  | accept
  /-- `log.Printf("[✗] Accept error: %v", err)`. -/
  | logAcceptError
  /-- `go p.handleConnection(conn)`; `none` is the nil `net.Conn`. -/
  | goHandleConnection (conn : Option Nat)
  /-- The deferred `listener.Close()`. -/
  | closeListener
deriving DecidableEq, Repr

/-- How `Start` ends: with an error, with `nil`, or not within the accepts supplied
(it is blocked in `listener.Accept()`). -/
inductive StartResult where
  | listenFailed
  | returnedNil
  | accepting
deriving DecidableEq, Repr

/-- The lines `log.Printf(..., i+1, b.Address)` for `i, b := range p.backends`. -/
def logBackends : List Backend → Nat → List StartEvent
  | [], _ => []
  | b :: rest, i => StartEvent.logBackend (i + 1) b.Address :: logBackends rest (i + 1)

/-! ## Histories of one backend -/

/-- One thing that happens to the only backend of a one-backend pool. -/
inductive Step where
  /-- A health probe: whether its dial succeeds, and whether closing the probe connection
  returns no error. -/
  | probe (dialOk closeOk : Bool)
  /-- A call of `handleConnection` while the dial to the backend fails. -/
  | relayDialFails
deriving DecidableEq, Repr

/-- The UP and DOWN lines of a list of effects. -/
def transitions (t : List Event) : List Event :=
  t.filter (fun e => match e with
    | Event.logUp _ => true
    | Event.logDown _ => true
    | _ => false)

/-- UP and DOWN lines for `addr` strictly alternate; `expectUp` says which one comes
first. -/
def alternates (addr : String) : Bool → List Event → Bool
  | _, [] => true
  | expectUp, e :: es =>
    decide (e = if expectUp then Event.logUp addr else Event.logDown addr) &&
      alternates addr (!expectUp) es

/-- Only UP and DOWN lines for `addr`, and every DOWN comes directly after an UP;
`afterUp` says whether an UP directly precedes the list. -/
def downsFollowUps (addr : String) : Bool → List Event → Bool
  | _, [] => true
  | afterUp, e :: es =>
    if e = Event.logUp addr then downsFollowUps addr true es
    else if e = Event.logDown addr then afterUp && downsFollowUps addr false es
    else false

/-- What a step does to the flag of the backend. -/
inductive FlagOp where
  /-- Set the flag, logging UP when it was clear. -/
  | up
  /-- Clear the flag, logging DOWN when it was set. -/
  | down
  /-- Clear the flag, logging nothing. -/
  | clear
  /-- Leave the flag. -/
  | keep
deriving DecidableEq, Repr

/-- The flag after a `FlagOp` and the lines it logs. -/
def FlagOp.apply (addr : String) (h : Bool) : FlagOp → Bool × List Event
  | .up => (true, if h then [] else [Event.logUp addr])
  | .down => (false, if h then [Event.logDown addr] else [])
  | .clear => (false, [])
  | .keep => (h, [])

/-- A list of `FlagOp`s from flag `h`: the final flag and the lines logged. -/
def FlagOp.applyAll (addr : String) : Bool → List FlagOp → Bool × List Event
  | h, [] => (h, [])
  | h, op :: rest =>
    ((FlagOp.applyAll addr (op.apply addr h).1 rest).1,
      (op.apply addr h).2 ++ (FlagOp.applyAll addr (op.apply addr h).1 rest).2)

/-! ## Sessions as traces -/

/-- The states of a session named by the specification. -/
inductive Phase where
  | INIT
  | BACKEND_SELECTED
  | CONNECTED
  | RELAYING
  | CLOSED
deriving DecidableEq, Repr

/-- The state a session enters with an effect: a backend is selected when the dial to it
is issued, the session is connected when the `[C]` line is logged (the dial returned no
error), it relays from the start of the first copy task, and it is closed when the client
connection is closed. -/
def phaseOf : Event → Option Phase
  | .dial _ _ => some .BACKEND_SELECTED
  | .logOpened _ => some .CONNECTED
  | .go 1 _ _ => some .RELAYING
  | .close .client => some .CLOSED
  | _ => none

/-- The states a trace goes through, in order. -/
def phases (t : List Event) : List Phase :=
  Phase.INIT :: t.filterMap phaseOf

/-- Effects of the goroutine that runs `handleConnection` (the others belong to the copy
goroutines). -/
def isMainEvent : Event → Bool
  | .copied _ _ _ => false
  | .logCopyError _ => false
  | .closeWrite _ _ => false
  | .logCloseWriteError _ => false
  | .wgDone _ => false
  | .logUp _ => false
  | .logDown _ => false
  | _ => true

/-- Every `Close` of a socket comes after the `wg.Done()` of both copy tasks. -/
def ClosesAfterDone (t : List Event) : Prop :=
  ∀ pre c post, t = pre ++ Event.close c :: post →
    Event.wgDone 1 ∈ pre ∧ Event.wgDone 2 ∈ pre

/-- What a copy task still owes the wait group. -/
def TaskPc.pending : TaskPc → Nat
  | .finished => 0
  | _ => 1

/-- How the counter of the wait group and the copy tasks relate to where the main
goroutine stands. -/
def Session.Ctl (s : Session) : Prop :=
  match s.pc with
  | .atWgAdd => s.wg = 0 ∧ s.t1 = .notStarted ∧ s.t2 = .notStarted
  | .atGo1 => s.wg = 2 ∧ s.t1 = .notStarted ∧ s.t2 = .notStarted
  | .atGo2 => s.wg = s.t1.pending + 1 ∧ s.t1 ≠ .notStarted ∧ s.t2 = .notStarted
  | .atWait => s.wg = s.t1.pending + s.t2.pending ∧ s.t1 ≠ .notStarted ∧ s.t2 ≠ .notStarted
  | _ => s.wg = 0 ∧ s.t1 = .finished ∧ s.t2 = .finished

/-- The invariant of a connected session: `mainTrace` gives the effects of the main
goroutine up to each of its program points, `start` the effects before `wg.Add`. -/
def Session.Inv (start : List Event) (mainTrace : MainPc → List Event) (s : Session) :
    Prop :=
  s.trace.filter isMainEvent = start ++ mainTrace s.pc ∧
    s.Ctl ∧
    (s.t1 = .finished → Event.wgDone 1 ∈ s.trace) ∧
    (s.t2 = .finished → Event.wgDone 2 ∈ s.trace) ∧
    ClosesAfterDone s.trace

/-- What the specification asks of one run of `handleConnection`: `sel` is the backend
selected (`none` when there is none), `dialOk` the outcome of the dial to it, `s` the
session the run ends in. -/
def SessionLifecycle (sel : Option Nat) (dialOk : Bool) (s : Session) : Prop :=
  -- a run that returns has closed the client connection, once
  (s.pc = .returned → s.trace.count (Event.close .client) = 1) ∧
  -- and has closed the backend connection exactly when the dial succeeded
  (s.pc = .returned →
    (Event.close .backend ∈ s.trace ↔ sel.isSome = true ∧ dialOk = true)) ∧
  -- on the relay path no socket is closed before both copy tasks are done
  (sel.isSome = true → dialOk = true → ClosesAfterDone s.trace) ∧
  -- a run that returns went through the states of one of the three paths
  (s.pc = .returned →
    phases s.trace =
      match sel, dialOk with
      | none, _ => [.INIT, .CLOSED]
      | some _, false => [.INIT, .BACKEND_SELECTED, .CLOSED]
      | some _, true => [.INIT, .BACKEND_SELECTED, .CONNECTED, .RELAYING, .CLOSED])

/-- The outcome of the dial `handleConnection` issues to the backend it selected. -/
def relayDialOk (net : Net) (pool : List Backend) (sel : Option Nat) : Bool :=
  match sel with
  | none => false
  | some i => net.dialOk (addressAt pool i)

/-- The starts of copy tasks among the effects. -/
def isGo : Event → Bool
  | .go _ _ _ => true
  | _ => false

/-- The dispatches of `handleConnection` among the effects of `Start`. -/
def isDispatch : StartEvent → Bool
  | .goHandleConnection _ => true
  | _ => false

/-- The results of `Accept()` the loop gets to see: those before the first error that
finds the context cancelled. -/
def seenAccepts (accepts : List Accepted) : List Accepted :=
  accepts.takeWhile (fun a => a != Accepted.err true)

/-- A schedule that lets every goroutine of a session finish: the main goroutine up to
`wg.Wait()`, the first copy task, the second, the main goroutine to its return. -/
def fullSched : List Tid :=
  [.main, .main, .main, .copy1, .copy1, .copy1, .copy2, .copy2, .copy2,
    .main, .main, .main, .main]

/-! ## `src/main.go` -/

namespace MainGo

/-- `type Config struct`, durations in nanoseconds. -/
structure Config where
  Listen : String
  BackendDial : Nat
  HealthcheckDial : Nat
  HealthcheckInterval : Nat
  Servers : List String
deriving DecidableEq, Repr

/-- `type ProxyServer struct { listenAddr string; backends []*Backend; cfg *Config; ... }`. -/
structure ProxyServer where
  listenAddr : String
  backends : List Backend
  cfg : Config
deriving DecidableEq, Repr

/-- `func NewProxyServer(cfg *Config) *ProxyServer`. -/
def NewProxyServer (cfg : Config) : ProxyServer :=
  { listenAddr := cfg.Listen
    backends := cfg.Servers.map (fun addr => { Address := addr, Healthy := false })
    cfg := cfg }

/-- The goroutine body of `checkAllBackends`, run on the backend `b` points to. -/
def checkAllBackends.probe (net : Net) (b : Backend) : Backend × List Event :=
  if net.dialOk b.Address = false then
    -- err != nil
    (b.SetHealthy false, if b.IsHealthy then [Event.logDown b.Address] else [])
  else
    -- _ = conn.Close()
    (b.SetHealthy true, if !b.IsHealthy then [Event.logUp b.Address] else [])

/-- One probe goroutine of `checkAllBackends`, for the backend at position `i`. -/
def checkAllBackends.probeAt (net : Net) (p : ProxyServer) (i : Nat) :
    ProxyServer × List Event :=
  let r := onCell (checkAllBackends.probe net) p.backends i
  ({ p with backends := r.1 }, r.2)

/-- `func (p *ProxyServer) checkAllBackends()` with all its goroutines run to completion,
in the order `sched` (a permutation of the positions of `p.backends`). -/
def checkAllBackends (net : Net) (sched : List Nat) (p : ProxyServer) :
    ProxyServer × List Event :=
  let r := fanOut (checkAllBackends.probe net) sched p.backends
  ({ p with backends := r.1 }, r.2)

/-- `func (p *ProxyServer) getHealthyBackend() *Backend`: the pointer returned, and the
proxy after the call. -/
def getHealthyBackend (p : ProxyServer) : Option Nat × ProxyServer :=
  (firstHealthy p.backends 0, p)

/-- One step of goroutine `tid` of a connected session; a goroutine that cannot move
(not started, finished, or blocked in `wg.Wait()`) leaves the session as it is. -/
def handleConnection.step (tid : Tid) (s : Session) : Session :=
  match tid with
  | .main =>
    match s.pc with
    | .atWgAdd =>
      -- wg.Add(2)
      { s.emit (.wgAdd 2) with pc := .atGo1, wg := s.wg + 2 }
    | .atGo1 =>
      -- go func() { defer wg.Done(); io.Copy(backendConn, clientConn) ... }()
      { s.emit (.go 1 .client .backend) with pc := .atGo2, t1 := .atCopy }
    | .atGo2 =>
      -- go func() { defer wg.Done(); io.Copy(clientConn, backendConn) ... }()
      { s.emit (.go 2 .backend .client) with pc := .atWait, t2 := .atCopy }
    | .atWait =>
      -- wg.Wait()
      if s.wg = 0 then { s.emit .wgWait with pc := .atLogClosed } else s
    | .atLogClosed =>
      { s.emit .logClosed with pc := .atCloseBackend }
    | .atCloseBackend =>
      -- deferred backendConn.Close()
      { s.emit (.close .backend) with pc := .atCloseClient }
    | .atCloseClient =>
      -- deferred clientConn.Close()
      { s.emit (.close .client) with pc := .returned }
    | .returned => s
  | .copy1 =>
    match s.t1 with
    | .atCopy =>
      -- _, _ = io.Copy(backendConn, clientConn)
      { s.emit (.copied 1 .client .backend) with t1 := .atDone }
    | .atDone =>
      -- defer wg.Done()
      { s.emit (.wgDone 1) with t1 := .finished, wg := s.wg - 1 }
    | _ => s
  | .copy2 =>
    match s.t2 with
    | .atCopy =>
      -- _, _ = io.Copy(clientConn, backendConn)
      { s.emit (.copied 2 .backend .client) with t2 := .atDone }
    | .atDone =>
      -- defer wg.Done()
      { s.emit (.wgDone 2) with t2 := .finished, wg := s.wg - 1 }
    | _ => s

/-- Run the goroutines of a connected session in the order given by `sched`. -/
def handleConnection.run : List Tid → Session → Session
  | [], s => s
  | tid :: rest, s => handleConnection.run rest (handleConnection.step tid s)

/-- The deferred `clientConn.Close()` on the two early returns. -/
def handleConnection.closeClient : List Event :=
  [Event.close .client]

/-- `func (p *ProxyServer) handleConnection(clientConn net.Conn)`: the proxy afterwards and
the session (its `pc` is `returned` when the call has returned within `sched`). -/
def handleConnection (net : Net) (sched : List Tid) (p : ProxyServer) :
    ProxyServer × Session :=
  match getHealthyBackend p with
  | (none, p1) =>
    -- backend == nil
    (p1, ⟨.returned, .notStarted, .notStarted, 0,
      Event.logNoHealthy :: handleConnection.closeClient⟩)
  | (some i, p1) =>
    let addr := addressAt p1.backends i
    if net.dialOk addr = false then
      -- err != nil
      ({ p1 with backends := setHealthyAt p1.backends i false },
        ⟨.returned, .notStarted, .notStarted, 0,
          Event.dial i addr :: Event.logConnectFailed addr ::
            handleConnection.closeClient⟩)
    else
      (p1, handleConnection.run sched
        ⟨.atWgAdd, .notStarted, .notStarted, 0, [Event.dial i addr, Event.logOpened addr]⟩)

/-- The accept loop of `Start`, fed with what the successive `Accept()` calls return. -/
def Start.loop : List Accepted → List StartEvent × StartResult
  | [] => ([StartEvent.accept], StartResult.accepting)
  | Accepted.conn c :: rest =>
    let r := Start.loop rest
    (StartEvent.accept :: StartEvent.goHandleConnection (some c) :: r.1, r.2)
  | Accepted.err true :: _ =>
    -- case <-ctx.Done(): return nil
    ([StartEvent.accept], StartResult.returnedNil)
  | Accepted.err false :: rest =>
    let r := Start.loop rest
    -- default: log.Printf(...); continue
    (StartEvent.accept :: StartEvent.logAcceptError :: r.1, r.2)

/-- `func (p *ProxyServer) Start(ctx context.Context) error`. -/
def Start (listenOk : Bool) (accepts : List Accepted) (p : ProxyServer) :
    List StartEvent × StartResult :=
  if listenOk = false then
    ([StartEvent.listen p.listenAddr], StartResult.listenFailed)
  else
    let r := Start.loop accepts
    let deferred := if r.2 = StartResult.returnedNil then [StartEvent.closeListener] else []
    (StartEvent.listen p.listenAddr :: StartEvent.logBanner ::
      (logBackends p.backends 0 ++ [StartEvent.goHealthCheck] ++ r.1 ++ deferred), r.2)

/-- The effects of the main goroutine of a connected session, from `wg.Add` up to the
program point `pc`. -/
def handleConnection.mainTrace : MainPc → List Event
  | .atWgAdd => []
  | .atGo1 => [.wgAdd 2]
  | .atGo2 => [.wgAdd 2, .go 1 .client .backend]
  | .atWait => [.wgAdd 2, .go 1 .client .backend, .go 2 .backend .client]
  | .atLogClosed => [.wgAdd 2, .go 1 .client .backend, .go 2 .backend .client, .wgWait]
  | .atCloseBackend =>
    [.wgAdd 2, .go 1 .client .backend, .go 2 .backend .client, .wgWait, .logClosed]
  | .atCloseClient =>
    [.wgAdd 2, .go 1 .client .backend, .go 2 .backend .client, .wgWait, .logClosed,
      .close .backend]
  | .returned =>
    [.wgAdd 2, .go 1 .client .backend, .go 2 .backend .client, .wgWait, .logClosed,
      .close .backend, .close .client]

/-- Run one `Step` on the proxy: the proxy afterwards and the effects. -/
def applyStep (p : ProxyServer) : Step → ProxyServer × List Event
  | .probe d c => checkAllBackends.probeAt ⟨fun _ => d, fun _ => c⟩ p 0
  | .relayDialFails =>
    ((handleConnection ⟨fun _ => false, fun _ => true⟩ [] p).1,
      (handleConnection ⟨fun _ => false, fun _ => true⟩ [] p).2.trace)

/-- Run the steps one at a time. -/
def applySteps : List Step → ProxyServer → ProxyServer × List Event
  | [], p => (p, [])
  | st :: rest, p =>
    ((applySteps rest (applyStep p st).1).1,
      (applyStep p st).2 ++ (applySteps rest (applyStep p st).1).2)

/-- What a step does to the flag in `main.go`. -/
def flagOp : Step → FlagOp
  | .probe true _ => .up
  | .probe false _ => .down
  | .relayDialFails => .clear

end MainGo

/-! ## `src/proxy.go` -/

namespace ProxyGo

/-- `type ProxyServer struct { listenAddr string; backends []*Backend; ... }`. -/
structure ProxyServer where
  listenAddr : String
  backends : List Backend
deriving DecidableEq, Repr

/-- `func NewProxyServer(listenAddr string, backendAddrs []string) *ProxyServer`. -/
def NewProxyServer (listenAddr : String) (backendAddrs : List String) : ProxyServer :=
  { listenAddr := listenAddr
    backends := backendAddrs.map (fun addr => { Address := addr, Healthy := false }) }

/-- The goroutine body of `checkAllBackends`, run on the backend `b` points to. -/
def checkAllBackends.probe (net : Net) (b : Backend) : Backend × List Event :=
  if net.dialOk b.Address = false then
    -- err != nil
    (b.SetHealthy false, if b.IsHealthy then [Event.logDown b.Address] else [])
  else if net.probeCloseOk b.Address = false then
    -- err = conn.Close(); if err != nil { return }
    (b, [])
  else
    (b.SetHealthy true, if !b.IsHealthy then [Event.logUp b.Address] else [])

/-- One probe goroutine of `checkAllBackends`, for the backend at position `i`. -/
def checkAllBackends.probeAt (net : Net) (p : ProxyServer) (i : Nat) :
    ProxyServer × List Event :=
  let r := onCell (checkAllBackends.probe net) p.backends i
  ({ p with backends := r.1 }, r.2)

/-- `func (p *ProxyServer) checkAllBackends()` with all its goroutines run to completion,
in the order `sched` (a permutation of the positions of `p.backends`). -/
def checkAllBackends (net : Net) (sched : List Nat) (p : ProxyServer) :
    ProxyServer × List Event :=
  let r := fanOut (checkAllBackends.probe net) sched p.backends
  ({ p with backends := r.1 }, r.2)

/-- `func (p *ProxyServer) getHealthyBackend() *Backend`: the pointer returned, and the
proxy after the call. -/
def getHealthyBackend (p : ProxyServer) : Option Nat × ProxyServer :=
  (firstHealthy p.backends 0, p)

/-- One step of goroutine `tid` of a connected session; a goroutine that cannot move
(not started, finished, or blocked in `wg.Wait()`) leaves the session as it is. -/
def handleConnection.step (errs : Errs) (tid : Tid) (s : Session) : Session :=
  match tid with
  | .main =>
    match s.pc with
    | .atWgAdd =>
      -- wg.Add(2)
      { s.emit (.wgAdd 2) with pc := .atGo1, wg := s.wg + 2 }
    | .atGo1 =>
      -- go func() { defer wg.Done(); io.Copy(clientConn, backendConn) ... }()
      { s.emit (.go 1 .backend .client) with pc := .atGo2, t1 := .atCopy }
    | .atGo2 =>
      -- go func() { defer wg.Done(); io.Copy(clientConn, backendConn) ... }()
      { s.emit (.go 2 .backend .client) with pc := .atWait, t2 := .atCopy }
    | .atWait =>
      -- wg.Wait()
      if s.wg = 0 then { s.emit .wgWait with pc := .atLogClosed } else s
    | .atLogClosed =>
      { s.emit .logClosed with pc := .atCloseBackend }
    | .atCloseBackend =>
      -- deferred backendConn.Close()
      let s1 := s.emit (.close .backend)
      if errs.closeErr .backend then
        { s1.emit (.logCloseError .backend) with pc := .atCloseClient }
      else
        { s1 with pc := .atCloseClient }
    | .atCloseClient =>
      -- deferred clientConn.Close()
      let s1 := s.emit (.close .client)
      if errs.closeErr .client then
        { s1.emit (.logCloseError .client) with pc := .returned }
      else
        { s1 with pc := .returned }
    | .returned => s
  | .copy1 =>
    match s.t1 with
    | .atCopy =>
      -- _, err := io.Copy(clientConn, backendConn)
      let s1 := s.emit (.copied 1 .backend .client)
      if errs.copyErr 1 then
        { s1.emit (.logCopyError 1) with t1 := .atDone }
      else
        { s1 with t1 := .atCloseWrite }
    | .atCloseWrite =>
      -- err = clientConn.(*net.TCPConn).CloseWrite()
      let s1 := s.emit (.closeWrite 1 .client)
      if errs.closeWriteErr 1 then
        { s1.emit (.logCloseWriteError 1) with t1 := .atDone }
      else
        { s1 with t1 := .atDone }
    | .atDone =>
      -- defer wg.Done()
      { s.emit (.wgDone 1) with t1 := .finished, wg := s.wg - 1 }
    | _ => s
  | .copy2 =>
    match s.t2 with
    | .atCopy =>
      -- _, err := io.Copy(clientConn, backendConn)
      let s1 := s.emit (.copied 2 .backend .client)
      if errs.copyErr 2 then
        { s1.emit (.logCopyError 2) with t2 := .atDone }
      else
        { s1 with t2 := .atCloseWrite }
    | .atCloseWrite =>
      -- err = clientConn.(*net.TCPConn).CloseWrite()
      let s1 := s.emit (.closeWrite 2 .client)
      if errs.closeWriteErr 2 then
        { s1.emit (.logCloseWriteError 2) with t2 := .atDone }
      else
        { s1 with t2 := .atDone }
    | .atDone =>
      -- defer wg.Done()
      { s.emit (.wgDone 2) with t2 := .finished, wg := s.wg - 1 }
    | _ => s

/-- Run the goroutines of a connected session in the order given by `sched`. -/
def handleConnection.run (errs : Errs) : List Tid → Session → Session
  | [], s => s
  | tid :: rest, s => handleConnection.run errs rest (handleConnection.step errs tid s)

/-- The deferred `clientConn.Close()` on the two early returns. -/
def handleConnection.closeClient (errs : Errs) : List Event :=
  (if errs.closeErr .client then [Event.close .client, Event.logCloseError .client]
     else [Event.close .client])

/-- `func (p *ProxyServer) handleConnection(clientConn net.Conn)`: the proxy afterwards and
the session (its `pc` is `returned` when the call has returned within `sched`). -/
def handleConnection (net : Net) (errs : Errs) (sched : List Tid) (p : ProxyServer) :
    ProxyServer × Session :=
  match getHealthyBackend p with
  | (none, p1) =>
    -- backend == nil
    (p1, ⟨.returned, .notStarted, .notStarted, 0,
      Event.logNoHealthy :: handleConnection.closeClient errs⟩)
  | (some i, p1) =>
    let addr := addressAt p1.backends i
    if net.dialOk addr = false then
      -- err != nil
      ({ p1 with backends := setHealthyAt p1.backends i false },
        ⟨.returned, .notStarted, .notStarted, 0,
          Event.dial i addr :: Event.logConnectFailed addr ::
            handleConnection.closeClient errs⟩)
    else
      (p1, handleConnection.run errs sched
        ⟨.atWgAdd, .notStarted, .notStarted, 0, [Event.dial i addr, Event.logOpened addr]⟩)

/-- The accept loop of `Start`, fed with what the successive `Accept()` calls return. -/
def Start.loop : List Accepted → List StartEvent × StartResult
  | [] => ([StartEvent.accept], StartResult.accepting)
  | Accepted.conn c :: rest =>
    let r := Start.loop rest
    (StartEvent.accept :: StartEvent.goHandleConnection (some c) :: r.1, r.2)
  | Accepted.err true :: _ =>
    -- case <-ctx.Done(): return nil
    ([StartEvent.accept], StartResult.returnedNil)
  | Accepted.err false :: rest =>
    let r := Start.loop rest
    -- default: log.Printf(...)
    -- go p.handleConnection(conn)
    (StartEvent.accept :: StartEvent.logAcceptError ::
      StartEvent.goHandleConnection none :: r.1, r.2)

/-- `func (p *ProxyServer) Start(ctx context.Context) error`. -/
def Start (listenOk : Bool) (accepts : List Accepted) (p : ProxyServer) :
    List StartEvent × StartResult :=
  if listenOk = false then
    ([StartEvent.listen p.listenAddr], StartResult.listenFailed)
  else
    let r := Start.loop accepts
    let deferred := if r.2 = StartResult.returnedNil then [StartEvent.closeListener] else []
    (StartEvent.listen p.listenAddr :: StartEvent.logBanner ::
      (logBackends p.backends 0 ++ [StartEvent.goHealthCheck, StartEvent.sleep, StartEvent.goCloseOnDone] ++ r.1 ++ deferred), r.2)

/-- The deferred `backendConn.Close()` with its error line. -/
def handleConnection.closeBackend (errs : Errs) : List Event :=
  if errs.closeErr .backend then [Event.close .backend, Event.logCloseError .backend]
  else [Event.close .backend]

/-- The effects of the main goroutine of a connected session, from `wg.Add` up to the
program point `pc`. -/
def handleConnection.mainTrace (errs : Errs) : MainPc → List Event
  | .atWgAdd => []
  | .atGo1 => [.wgAdd 2]
  | .atGo2 => [.wgAdd 2, .go 1 .backend .client]
  | .atWait => [.wgAdd 2, .go 1 .backend .client, .go 2 .backend .client]
  | .atLogClosed => [.wgAdd 2, .go 1 .backend .client, .go 2 .backend .client, .wgWait]
  | .atCloseBackend =>
    [.wgAdd 2, .go 1 .backend .client, .go 2 .backend .client, .wgWait, .logClosed]
  | .atCloseClient =>
    [.wgAdd 2, .go 1 .backend .client, .go 2 .backend .client, .wgWait, .logClosed] ++
      handleConnection.closeBackend errs
  | .returned =>
    [.wgAdd 2, .go 1 .backend .client, .go 2 .backend .client, .wgWait, .logClosed] ++
      handleConnection.closeBackend errs ++ handleConnection.closeClient errs

/-- Run one `Step` on the proxy: the proxy afterwards and the effects. -/
def applyStep (errs : Errs) (p : ProxyServer) : Step → ProxyServer × List Event
  | .probe d c => checkAllBackends.probeAt ⟨fun _ => d, fun _ => c⟩ p 0
  | .relayDialFails =>
    ((handleConnection ⟨fun _ => false, fun _ => true⟩ errs [] p).1,
      (handleConnection ⟨fun _ => false, fun _ => true⟩ errs [] p).2.trace)

/-- Run the steps one at a time. -/
def applySteps (errs : Errs) : List Step → ProxyServer → ProxyServer × List Event
  | [], p => (p, [])
  | st :: rest, p =>
    ((applySteps errs rest (applyStep errs p st).1).1,
      (applyStep errs p st).2 ++ (applySteps errs rest (applyStep errs p st).1).2)

/-- What a step does to the flag in `proxy.go`. -/
def flagOp : Step → FlagOp
  | .probe true true => .up
  | .probe true false => .keep
  | .probe false _ => .down
  | .relayDialFails => .clear

end ProxyGo

/-! ## Lemmas on the selector loop -/

theorem firstHealthy_some (pool : List Backend) (k i : Nat) :
    firstHealthy pool k = some i ↔
      ∃ j, i = k + j ∧ (∃ b, pool[j]? = some b ∧ b.Healthy = true) ∧
        ∀ m, m < j → ∀ b, pool[m]? = some b → b.Healthy = false := by
  induction pool generalizing k with
  | nil => simp [firstHealthy]
  | cons b rest ih =>
    unfold firstHealthy
    by_cases hb : b.IsHealthy = true
    · simp only [hb, if_true, Option.some.injEq]
      constructor
      · intro h
        refine ⟨0, by omega, ⟨b, by simp, hb⟩, ?_⟩
        intro m hm
        omega
      · rintro ⟨j, hj, _, hlt⟩
        rcases Nat.eq_zero_or_pos j with h0 | hpos
        · omega
        · have := hlt 0 hpos b (by simp)
          simp [Backend.IsHealthy] at hb
          simp [hb] at this
    · have hb2 : b.Healthy = false := by simpa [Backend.IsHealthy] using hb
      simp only [hb, if_false, Bool.false_eq_true]
      rw [ih]
      constructor
      · rintro ⟨j, hj, ⟨c, hc, hch⟩, hlt⟩
        refine ⟨j + 1, by omega, ⟨c, by simpa using hc, hch⟩, ?_⟩
        intro m hm c2 hc2
        cases m with
        | zero => simp at hc2; rw [← hc2]; exact hb2
        | succ m => exact hlt m (by omega) c2 (by simpa using hc2)
      · rintro ⟨j, hj, ⟨c, hc, hch⟩, hlt⟩
        cases j with
        | zero => simp at hc; rw [hc] at hb2; simp [hb2] at hch
        | succ j =>
          refine ⟨j, by omega, ⟨c, by simpa using hc, hch⟩, ?_⟩
          intro m hm c2 hc2
          exact hlt (m + 1) (by omega) c2 (by simpa using hc2)

theorem firstHealthy_none (pool : List Backend) (k : Nat) :
    firstHealthy pool k = none ↔ ∀ b ∈ pool, b.Healthy = false := by
  induction pool generalizing k with
  | nil => simp [firstHealthy]
  | cons b rest ih =>
    unfold firstHealthy
    by_cases hb : b.IsHealthy = true
    · have hb2 : b.Healthy = true := by simpa [Backend.IsHealthy] using hb
      simp [hb, hb2]
    · have hb2 : b.Healthy = false := by simpa [Backend.IsHealthy] using hb
      simp [hb, hb2, ih]

theorem firstHealthy_spec (pool : List Backend) (i : Nat) :
    firstHealthy pool 0 = some i ↔
      (∃ b, pool[i]? = some b ∧ b.Healthy = true) ∧
        ∀ m, m < i → ∀ b, pool[m]? = some b → b.Healthy = false := by
  rw [firstHealthy_some]
  constructor
  · rintro ⟨j, hj, h1, h2⟩
    have : i = j := by omega
    subst this
    exact ⟨h1, h2⟩
  · rintro ⟨h1, h2⟩
    exact ⟨i, by omega, h1, h2⟩

/-! ## Lemmas on pointer writes -/

theorem setHealthyAt_length (pool : List Backend) (i : Nat) (h : Bool) :
    (setHealthyAt pool i h).length = pool.length := by
  unfold setHealthyAt
  split <;> simp

theorem setHealthyAt_self (pool : List Backend) (i : Nat) (h : Bool) (b : Backend)
    (hb : pool[i]? = some b) :
    (setHealthyAt pool i h)[i]? = some { Address := b.Address, Healthy := h } := by
  have hi : i < pool.length := by
    rcases List.getElem?_eq_some.1 hb with ⟨hi, _⟩
    exact hi
  simp [setHealthyAt, hb, List.getElem?_set, hi, Backend.SetHealthy]

theorem setHealthyAt_other (pool : List Backend) (i j : Nat) (h : Bool) (hij : j ≠ i) :
    (setHealthyAt pool i h)[j]? = pool[j]? := by
  unfold setHealthyAt
  split
  · rw [List.getElem?_set_ne (Ne.symm hij)]
  · rfl

theorem setHealthyAt_address (pool : List Backend) (i : Nat) (h : Bool) :
    (setHealthyAt pool i h).map Backend.Address = pool.map Backend.Address := by
  apply List.ext_getElem?
  intro j
  by_cases hij : j = i
  · subst hij
    cases hb : pool[j]? with
    | none => simp [setHealthyAt, hb]
    | some b => simp [List.getElem?_map, setHealthyAt_self pool j h b hb, hb]
  · simp [List.getElem?_map, setHealthyAt_other pool i j h hij]

theorem onCell_length (f : Backend → Backend × List Event) (pool : List Backend) (i : Nat) :
    (onCell f pool i).1.length = pool.length := by
  unfold onCell
  split <;> simp

theorem onCell_self (f : Backend → Backend × List Event) (pool : List Backend) (i : Nat) :
    (onCell f pool i).1[i]? = pool[i]?.map (fun b => (f b).1) := by
  unfold onCell
  cases hb : pool[i]? with
  | none => simp [hb]
  | some b =>
    have hi : i < pool.length := (List.getElem?_eq_some.1 hb).1
    simp [List.getElem?_set, hi]

theorem onCell_other (f : Backend → Backend × List Event) (pool : List Backend) (i j : Nat)
    (hij : j ≠ i) : (onCell f pool i).1[j]? = pool[j]? := by
  unfold onCell
  split
  · rfl
  · simp only
    rw [List.getElem?_set_ne (Ne.symm hij)]

theorem onCell_events (f : Backend → Backend × List Event) (pool : List Backend) (i : Nat) :
    (onCell f pool i).2 = (pool[i]?.map (fun b => (f b).2)).getD [] := by
  unfold onCell
  cases hb : pool[i]? <;> simp

/-! ## Backend selector -/

/-- C1: in `main.go` and in `proxy.go`, for every pool, `getHealthyBackend` returns the
backend at position `i` exactly when that backend is healthy and no backend before it is;
it returns nil exactly when no backend of the pool is healthy; the proxy (flags, addresses,
length and order of the pool) is the same after the call. -/
theorem C1_getHealthyBackend_first_healthy
    (pm : MainGo.ProxyServer) (pp : ProxyGo.ProxyServer) :
    ((∀ i, (MainGo.getHealthyBackend pm).1 = some i ↔
        (∃ b, pm.backends[i]? = some b ∧ b.Healthy = true) ∧
          ∀ m, m < i → ∀ b, pm.backends[m]? = some b → b.Healthy = false) ∧
      ((MainGo.getHealthyBackend pm).1 = none ↔ ∀ b ∈ pm.backends, b.Healthy = false) ∧
      (MainGo.getHealthyBackend pm).2 = pm) ∧
    ((∀ i, (ProxyGo.getHealthyBackend pp).1 = some i ↔
        (∃ b, pp.backends[i]? = some b ∧ b.Healthy = true) ∧
          ∀ m, m < i → ∀ b, pp.backends[m]? = some b → b.Healthy = false) ∧
      ((ProxyGo.getHealthyBackend pp).1 = none ↔ ∀ b ∈ pp.backends, b.Healthy = false) ∧
      (ProxyGo.getHealthyBackend pp).2 = pp) :=
  ⟨⟨fun i => firstHealthy_spec pm.backends i, firstHealthy_none pm.backends 0, rfl⟩,
    ⟨fun i => firstHealthy_spec pp.backends i, firstHealthy_none pp.backends 0, rfl⟩⟩

/-! ## One health probe -/

theorem onCell_split (f : Backend → Backend × List Event) (pre post : List Backend)
    (b : Backend) :
    onCell f (pre ++ b :: post) pre.length = (pre ++ (f b).1 :: post, (f b).2) := by
  have h : (pre ++ b :: post)[pre.length]? = some b := by
    rw [List.getElem?_append_right (le_refl _)]
    simp
  unfold onCell
  rw [h]
  simp

/-- One health probe of the backend `b` standing between `pre` and `post` in the pool,
on every input. In `main.go`: a successful dial leaves `b` healthy and logs UP exactly
when `b` was unhealthy; a failed dial leaves `b` unhealthy and logs DOWN exactly when `b`
was healthy. In `proxy.go` the same holds when the dial fails, and when the dial succeeds
and closing the probe connection returns no error; when that close returns an error the
probe returns early, changing nothing and logging nothing. The address of `b`, every
other backend and the rest of the proxy are unchanged in all cases. -/
theorem probe_outcome (net : Net) (l : String) (cfg : MainGo.Config)
    (pre post : List Backend) (b : Backend) :
    ((net.dialOk b.Address = true →
        MainGo.checkAllBackends.probeAt net ⟨l, pre ++ b :: post, cfg⟩ pre.length =
          (⟨l, pre ++ ⟨b.Address, true⟩ :: post, cfg⟩,
            if b.Healthy = false then [Event.logUp b.Address] else [])) ∧
      (net.dialOk b.Address = false →
        MainGo.checkAllBackends.probeAt net ⟨l, pre ++ b :: post, cfg⟩ pre.length =
          (⟨l, pre ++ ⟨b.Address, false⟩ :: post, cfg⟩,
            if b.Healthy = true then [Event.logDown b.Address] else []))) ∧
    ((net.dialOk b.Address = true → net.probeCloseOk b.Address = true →
        ProxyGo.checkAllBackends.probeAt net ⟨l, pre ++ b :: post⟩ pre.length =
          (⟨l, pre ++ ⟨b.Address, true⟩ :: post⟩,
            if b.Healthy = false then [Event.logUp b.Address] else [])) ∧
      (net.dialOk b.Address = true → net.probeCloseOk b.Address = false →
        ProxyGo.checkAllBackends.probeAt net ⟨l, pre ++ b :: post⟩ pre.length =
          (⟨l, pre ++ b :: post⟩, [])) ∧
      (net.dialOk b.Address = false →
        ProxyGo.checkAllBackends.probeAt net ⟨l, pre ++ b :: post⟩ pre.length =
          (⟨l, pre ++ ⟨b.Address, false⟩ :: post⟩,
            if b.Healthy = true then [Event.logDown b.Address] else []))) := by
  refine ⟨⟨?_, ?_⟩, ?_, ?_, ?_⟩
  · intro hd
    cases hb : b.Healthy <;>
      simp [MainGo.checkAllBackends.probeAt, onCell_split, MainGo.checkAllBackends.probe, hd,
        Backend.SetHealthy, Backend.IsHealthy, hb]
  · intro hd
    cases hb : b.Healthy <;>
      simp [MainGo.checkAllBackends.probeAt, onCell_split, MainGo.checkAllBackends.probe, hd,
        Backend.SetHealthy, Backend.IsHealthy, hb]
  · intro hd hc
    cases hb : b.Healthy <;>
      simp [ProxyGo.checkAllBackends.probeAt, onCell_split, ProxyGo.checkAllBackends.probe,
        hd, hc, Backend.SetHealthy, Backend.IsHealthy, hb]
  · intro hd hc
    simp [ProxyGo.checkAllBackends.probeAt, onCell_split, ProxyGo.checkAllBackends.probe,
      hd, hc]
  · intro hd
    cases hb : b.Healthy <;>
      simp [ProxyGo.checkAllBackends.probeAt, onCell_split, ProxyGo.checkAllBackends.probe,
        hd, Backend.SetHealthy, Backend.IsHealthy, hb]

/-- C3 at a pool of one unhealthy backend whose dial succeeds while `conn.Close()` on the
probe connection returns an error: `proxy.go` returns from the probe with the backend
still unhealthy and without logging UP; `main.go`, on the same input, leaves the backend
healthy and logs UP. -/
theorem C3_proxy_probe_close_error_leaves_backend_unhealthy :
    (Net.mk (fun _ => true) (fun _ => false)).dialOk "10.0.0.1:25565" = true ∧
    ProxyGo.checkAllBackends.probeAt (Net.mk (fun _ => true) (fun _ => false))
        ⟨":25565", [⟨"10.0.0.1:25565", false⟩]⟩ 0 =
      (⟨":25565", [⟨"10.0.0.1:25565", false⟩]⟩, []) ∧
    MainGo.checkAllBackends.probeAt (Net.mk (fun _ => true) (fun _ => false))
        ⟨":25565", [⟨"10.0.0.1:25565", false⟩], ⟨":25565", 5, 3, 5, ["10.0.0.1:25565"]⟩⟩ 0 =
      (⟨":25565", [⟨"10.0.0.1:25565", true⟩], ⟨":25565", 5, 3, 5, ["10.0.0.1:25565"]⟩⟩,
        [Event.logUp "10.0.0.1:25565"]) := by
  decide

/-! ## The three paths of `handleConnection` -/

theorem main_handleConnection_none (net : Net) (sched : List Tid) (p : MainGo.ProxyServer)
    (h : firstHealthy p.backends 0 = none) :
    MainGo.handleConnection net sched p =
      (p, ⟨.returned, .notStarted, .notStarted, 0,
        [Event.logNoHealthy, Event.close .client]⟩) := by
  simp [MainGo.handleConnection, MainGo.getHealthyBackend, h,
    MainGo.handleConnection.closeClient]

theorem main_handleConnection_dial_failed (net : Net) (sched : List Tid)
    (p : MainGo.ProxyServer) (i : Nat) (h : firstHealthy p.backends 0 = some i)
    (hd : net.dialOk (addressAt p.backends i) = false) :
    MainGo.handleConnection net sched p =
      ({ p with backends := setHealthyAt p.backends i false },
        ⟨.returned, .notStarted, .notStarted, 0,
          [Event.dial i (addressAt p.backends i),
            Event.logConnectFailed (addressAt p.backends i), Event.close .client]⟩) := by
  simp [MainGo.handleConnection, MainGo.getHealthyBackend, h, hd,
    MainGo.handleConnection.closeClient]

theorem main_handleConnection_connected (net : Net) (sched : List Tid)
    (p : MainGo.ProxyServer) (i : Nat) (h : firstHealthy p.backends 0 = some i)
    (hd : net.dialOk (addressAt p.backends i) = true) :
    MainGo.handleConnection net sched p =
      (p, MainGo.handleConnection.run sched
        ⟨.atWgAdd, .notStarted, .notStarted, 0,
          [Event.dial i (addressAt p.backends i),
            Event.logOpened (addressAt p.backends i)]⟩) := by
  simp [MainGo.handleConnection, MainGo.getHealthyBackend, h, hd]

theorem proxy_handleConnection_none (net : Net) (errs : Errs) (sched : List Tid)
    (p : ProxyGo.ProxyServer) (h : firstHealthy p.backends 0 = none) :
    ProxyGo.handleConnection net errs sched p =
      (p, ⟨.returned, .notStarted, .notStarted, 0,
        Event.logNoHealthy :: ProxyGo.handleConnection.closeClient errs⟩) := by
  simp [ProxyGo.handleConnection, ProxyGo.getHealthyBackend, h]

theorem proxy_handleConnection_dial_failed (net : Net) (errs : Errs) (sched : List Tid)
    (p : ProxyGo.ProxyServer) (i : Nat) (h : firstHealthy p.backends 0 = some i)
    (hd : net.dialOk (addressAt p.backends i) = false) :
    ProxyGo.handleConnection net errs sched p =
      ({ p with backends := setHealthyAt p.backends i false },
        ⟨.returned, .notStarted, .notStarted, 0,
          Event.dial i (addressAt p.backends i) ::
            Event.logConnectFailed (addressAt p.backends i) ::
              ProxyGo.handleConnection.closeClient errs⟩) := by
  simp [ProxyGo.handleConnection, ProxyGo.getHealthyBackend, h, hd]

theorem proxy_handleConnection_connected (net : Net) (errs : Errs) (sched : List Tid)
    (p : ProxyGo.ProxyServer) (i : Nat) (h : firstHealthy p.backends 0 = some i)
    (hd : net.dialOk (addressAt p.backends i) = true) :
    ProxyGo.handleConnection net errs sched p =
      (p, ProxyGo.handleConnection.run errs sched
        ⟨.atWgAdd, .notStarted, .notStarted, 0,
          [Event.dial i (addressAt p.backends i),
            Event.logOpened (addressAt p.backends i)]⟩) := by
  simp [ProxyGo.handleConnection, ProxyGo.getHealthyBackend, h, hd]

theorem proxy_closeClient_cases (errs : Errs) :
    ProxyGo.handleConnection.closeClient errs = [Event.close .client] ∨
      ProxyGo.handleConnection.closeClient errs =
        [Event.close .client, Event.logCloseError .client] := by
  unfold ProxyGo.handleConnection.closeClient
  split
  · exact Or.inr rfl
  · exact Or.inl rfl

/-- C4: in `main.go` and in `proxy.go`, when `getHealthyBackend` selects the backend at
position `i` and the dial to its address fails, `handleConnection` returns with that
backend unhealthy, every other backend, every address and the length of the pool
unchanged, the client connection closed, no copy task started, and exactly one dial
attempted, the one to backend `i`. -/
theorem C4_dial_failure_marks_backend_unhealthy (net : Net) (errs : Errs)
    (sched : List Tid) (l : String) (cfg : MainGo.Config) (pool : List Backend) (i : Nat)
    (hsel : (MainGo.getHealthyBackend ⟨l, pool, cfg⟩).1 = some i ∧
      (ProxyGo.getHealthyBackend ⟨l, pool⟩).1 = some i)
    (hfail : net.dialOk (addressAt pool i) = false) :
    ((∃ b, pool[i]? = some b ∧
        (MainGo.handleConnection net sched ⟨l, pool, cfg⟩).1.backends[i]? =
          some ⟨b.Address, false⟩) ∧
      (∀ j, j ≠ i →
        (MainGo.handleConnection net sched ⟨l, pool, cfg⟩).1.backends[j]? = pool[j]?) ∧
      (MainGo.handleConnection net sched ⟨l, pool, cfg⟩).1.backends.map Backend.Address =
        pool.map Backend.Address ∧
      (MainGo.handleConnection net sched ⟨l, pool, cfg⟩).1.backends.length = pool.length ∧
      (MainGo.handleConnection net sched ⟨l, pool, cfg⟩).2.pc = MainPc.returned ∧
      Event.close Conn.client ∈ (MainGo.handleConnection net sched ⟨l, pool, cfg⟩).2.trace ∧
      (∀ t src dst,
        Event.go t src dst ∉ (MainGo.handleConnection net sched ⟨l, pool, cfg⟩).2.trace) ∧
      (MainGo.handleConnection net sched ⟨l, pool, cfg⟩).2.trace.filter
          (fun e => match e with | Event.dial _ _ => true | _ => false) =
        [Event.dial i (addressAt pool i)]) ∧
    ((∃ b, pool[i]? = some b ∧
        (ProxyGo.handleConnection net errs sched ⟨l, pool⟩).1.backends[i]? =
          some ⟨b.Address, false⟩) ∧
      (∀ j, j ≠ i →
        (ProxyGo.handleConnection net errs sched ⟨l, pool⟩).1.backends[j]? = pool[j]?) ∧
      (ProxyGo.handleConnection net errs sched ⟨l, pool⟩).1.backends.map Backend.Address =
        pool.map Backend.Address ∧
      (ProxyGo.handleConnection net errs sched ⟨l, pool⟩).1.backends.length = pool.length ∧
      (ProxyGo.handleConnection net errs sched ⟨l, pool⟩).2.pc = MainPc.returned ∧
      Event.close Conn.client ∈ (ProxyGo.handleConnection net errs sched ⟨l, pool⟩).2.trace ∧
      (∀ t src dst,
        Event.go t src dst ∉ (ProxyGo.handleConnection net errs sched ⟨l, pool⟩).2.trace) ∧
      (ProxyGo.handleConnection net errs sched ⟨l, pool⟩).2.trace.filter
          (fun e => match e with | Event.dial _ _ => true | _ => false) =
        [Event.dial i (addressAt pool i)]) := by
  have hm : firstHealthy pool 0 = some i := hsel.1
  obtain ⟨⟨b, hb, _⟩, _⟩ := (firstHealthy_spec pool i).1 hm
  constructor
  · rw [main_handleConnection_dial_failed net sched ⟨l, pool, cfg⟩ i hm hfail]
    refine ⟨⟨b, hb, setHealthyAt_self pool i false b hb⟩,
      fun j hj => setHealthyAt_other pool i j false hj, setHealthyAt_address pool i false,
      setHealthyAt_length pool i false, rfl, by simp, by simp, by simp⟩
  · rw [proxy_handleConnection_dial_failed net errs sched ⟨l, pool⟩ i hm hfail]
    refine ⟨⟨b, hb, setHealthyAt_self pool i false b hb⟩,
      fun j hj => setHealthyAt_other pool i j false hj, setHealthyAt_address pool i false,
      setHealthyAt_length pool i false, rfl, ?_, ?_, ?_⟩ <;>
    rcases proxy_closeClient_cases errs with h | h <;> simp [h]

/-- C4 at a pool of two backends whose first is down: the second is selected, the dial to
it fails. -/
theorem C4_dial_failure_marks_backend_unhealthy_witness :
    (MainGo.handleConnection ⟨fun _ => false, fun _ => true⟩ [Tid.main]
        ⟨":25565", [⟨"a:1", false⟩, ⟨"b:2", true⟩], ⟨":25565", 5, 3, 5, ["a:1", "b:2"]⟩⟩).1.backends
          = [⟨"a:1", false⟩, ⟨"b:2", false⟩] ∧
    (ProxyGo.handleConnection ⟨fun _ => false, fun _ => true⟩
        ⟨fun _ => false, fun _ => false, fun _ => false⟩ [Tid.main]
        ⟨":25565", [⟨"a:1", false⟩, ⟨"b:2", true⟩]⟩).2.trace.filter
          (fun e => match e with | Event.dial _ _ => true | _ => false) =
        [Event.dial 1 "b:2"] := by
  have h := C4_dial_failure_marks_backend_unhealthy ⟨fun _ => false, fun _ => true⟩
    ⟨fun _ => false, fun _ => false, fun _ => false⟩ [Tid.main] ":25565"
    ⟨":25565", 5, 3, 5, ["a:1", "b:2"]⟩ [⟨"a:1", false⟩, ⟨"b:2", true⟩] 1
    (by decide) (by decide)
  exact ⟨by decide, h.2.2.2.2.2.2.2.2⟩

/-- C5: in `main.go` and in `proxy.go`, when no backend of the pool is healthy (the empty
pool included), `handleConnection` returns with the client connection closed, no dial
attempted, no copy task started and the proxy unchanged. -/
theorem C5_no_healthy_backend_closes_client (net : Net) (errs : Errs) (sched : List Tid)
    (pm : MainGo.ProxyServer) (pp : ProxyGo.ProxyServer)
    (hm : ∀ b ∈ pm.backends, b.Healthy = false)
    (hp : ∀ b ∈ pp.backends, b.Healthy = false) :
    ((MainGo.handleConnection net sched pm).1 = pm ∧
      (MainGo.handleConnection net sched pm).2.pc = MainPc.returned ∧
      Event.close Conn.client ∈ (MainGo.handleConnection net sched pm).2.trace ∧
      (∀ j a, Event.dial j a ∉ (MainGo.handleConnection net sched pm).2.trace) ∧
      (∀ t src dst, Event.go t src dst ∉ (MainGo.handleConnection net sched pm).2.trace)) ∧
    ((ProxyGo.handleConnection net errs sched pp).1 = pp ∧
      (ProxyGo.handleConnection net errs sched pp).2.pc = MainPc.returned ∧
      Event.close Conn.client ∈ (ProxyGo.handleConnection net errs sched pp).2.trace ∧
      (∀ j a, Event.dial j a ∉ (ProxyGo.handleConnection net errs sched pp).2.trace) ∧
      (∀ t src dst,
        Event.go t src dst ∉ (ProxyGo.handleConnection net errs sched pp).2.trace)) := by
  constructor
  · rw [main_handleConnection_none net sched pm ((firstHealthy_none pm.backends 0).2 hm)]
    simp
  · rw [proxy_handleConnection_none net errs sched pp
      ((firstHealthy_none pp.backends 0).2 hp)]
    rcases proxy_closeClient_cases errs with h | h <;> simp [h]

/-- C5 at a pool whose two backends are both down, with every address reachable, and at
the empty pool. -/
theorem C5_no_healthy_backend_closes_client_witness :
    (MainGo.handleConnection ⟨fun _ => true, fun _ => true⟩ [Tid.main, Tid.copy1]
        ⟨":25565", [⟨"a:1", false⟩, ⟨"b:2", false⟩], ⟨":25565", 5, 3, 5, ["a:1", "b:2"]⟩⟩).2.trace
          = [Event.logNoHealthy, Event.close Conn.client] ∧
    (ProxyGo.handleConnection ⟨fun _ => true, fun _ => true⟩
        ⟨fun _ => false, fun _ => false, fun _ => false⟩ [Tid.main, Tid.copy1]
        ⟨":25565", []⟩).1 = ⟨":25565", []⟩ := by
  have h := C5_no_healthy_backend_closes_client ⟨fun _ => true, fun _ => true⟩
    ⟨fun _ => false, fun _ => false, fun _ => false⟩ [Tid.main, Tid.copy1]
    ⟨":25565", [⟨"a:1", false⟩, ⟨"b:2", false⟩], ⟨":25565", 5, 3, 5, ["a:1", "b:2"]⟩⟩
    ⟨":25565", []⟩ (by decide) (by decide)
  exact ⟨by decide, h.2.1⟩

/-! ## A completed health-check pass -/

theorem fanOut_cell (f : Backend → Backend × List Event) (sched : List Nat)
    (hnd : sched.Nodup) (pool : List Backend) (j : Nat) :
    (fanOut f sched pool).1[j]? =
      if j ∈ sched then pool[j]?.map (fun b => (f b).1) else pool[j]? := by
  induction sched generalizing pool with
  | nil => simp [fanOut]
  | cons i rest ih =>
    have hi : i ∉ rest := (List.nodup_cons.1 hnd).1
    have hrest : rest.Nodup := (List.nodup_cons.1 hnd).2
    simp only [fanOut]
    rw [ih hrest]
    by_cases hji : j = i
    · subst hji
      simp [hi, onCell_self]
    · by_cases hjr : j ∈ rest
      · simp [hjr, onCell_other f pool i j hji]
      · simp [hjr, hji, onCell_other f pool i j hji]

theorem fanOut_perm (f : Backend → Backend × List Event) (sched : List Nat)
    (pool : List Backend) (hs : sched.Perm (List.range pool.length)) :
    (fanOut f sched pool).1 = pool.map (fun b => (f b).1) := by
  apply List.ext_getElem?
  intro j
  rw [fanOut_cell f sched (hs.nodup_iff.2 (List.nodup_range _))]
  have hmem : j ∈ sched ↔ j < pool.length := by
    rw [hs.mem_iff, List.mem_range]
  by_cases hj : j < pool.length
  · simp [hmem.2 hj, List.getElem?_map]
  · have hnone : pool[j]? = none := List.getElem?_eq_none (by omega)
    simp [hmem, hj, List.getElem?_map, hnone]

theorem set_same (pool : List Backend) (i : Nat) (b : Backend) (hb : pool[i]? = some b) :
    pool.set i b = pool := by
  have hi : i < pool.length := (List.getElem?_eq_some.1 hb).1
  apply List.ext_getElem?
  intro j
  by_cases h : i = j
  · subst h
    simp [List.getElem?_set, hb, hi]
  · rw [List.getElem?_set_ne h]

theorem onCell_stable (f : Backend → Backend × List Event) (pool : List Backend) (i : Nat)
    (hst : ∀ b ∈ pool, f b = (b, [])) : onCell f pool i = (pool, []) := by
  unfold onCell
  cases hb : pool[i]? with
  | none => rfl
  | some b =>
    have hi : i < pool.length := (List.getElem?_eq_some.1 hb).1
    have hbi : pool[i] = b := (List.getElem?_eq_some.1 hb).2
    have hmem : b ∈ pool := hbi ▸ List.getElem_mem hi
    simp only [hst b hmem]
    rw [set_same pool i b hb]

theorem fanOut_stable (f : Backend → Backend × List Event) (sched : List Nat)
    (pool : List Backend) (hst : ∀ b ∈ pool, f b = (b, [])) :
    fanOut f sched pool = (pool, []) := by
  induction sched with
  | nil => rfl
  | cons i rest ih => simp [fanOut, onCell_stable f pool i hst, ih]

theorem main_probe_fresh (net : Net) (a : String) :
    (MainGo.checkAllBackends.probe net ⟨a, false⟩).1 = ⟨a, net.dialOk a⟩ := by
  cases h : net.dialOk a <;> simp [MainGo.checkAllBackends.probe, h, Backend.SetHealthy]

theorem proxy_probe_fresh (net : Net) (a : String)
    (hc : net.dialOk a = true → net.probeCloseOk a = true) :
    (ProxyGo.checkAllBackends.probe net ⟨a, false⟩).1 = ⟨a, net.dialOk a⟩ := by
  cases h : net.dialOk a
  · simp [ProxyGo.checkAllBackends.probe, h, Backend.SetHealthy]
  · simp [ProxyGo.checkAllBackends.probe, h, hc h, Backend.SetHealthy]

theorem main_probe_again (net1 net2 : Net) (hreach : ∀ a, net2.dialOk a = net1.dialOk a)
    (b : Backend) :
    MainGo.checkAllBackends.probe net2 (MainGo.checkAllBackends.probe net1 b).1 =
      ((MainGo.checkAllBackends.probe net1 b).1, []) := by
  cases h : net1.dialOk b.Address <;>
    simp [MainGo.checkAllBackends.probe, h, hreach, Backend.SetHealthy, Backend.IsHealthy]

theorem proxy_probe_again (net1 net2 : Net) (hreach : ∀ a, net2.dialOk a = net1.dialOk a)
    (hclose : ∀ a, net2.probeCloseOk a = net1.probeCloseOk a) (b : Backend) :
    ProxyGo.checkAllBackends.probe net2 (ProxyGo.checkAllBackends.probe net1 b).1 =
      ((ProxyGo.checkAllBackends.probe net1 b).1, []) := by
  cases h : net1.dialOk b.Address <;> cases hc : net1.probeCloseOk b.Address <;>
    simp [ProxyGo.checkAllBackends.probe, h, hc, hreach, hclose, Backend.SetHealthy,
      Backend.IsHealthy]

theorem firstHealthy_probed (dialOk : String → Bool) (L : List String) :
    (∀ i, firstHealthy (L.map (fun a => (⟨a, dialOk a⟩ : Backend))) 0 = some i ↔
        (∃ a, L[i]? = some a ∧ dialOk a = true) ∧
          ∀ m, m < i → ∀ a, L[m]? = some a → dialOk a = false) ∧
    (firstHealthy (L.map (fun a => (⟨a, dialOk a⟩ : Backend))) 0 = none ↔
        ∀ a ∈ L, dialOk a = false) := by
  constructor
  · intro i
    rw [firstHealthy_spec]
    simp only [List.getElem?_map]
    constructor
    · rintro ⟨⟨b, hb, hh⟩, hlt⟩
      cases ha : L[i]? with
      | none => simp [ha] at hb
      | some a =>
        simp [ha] at hb
        subst hb
        refine ⟨⟨a, rfl, hh⟩, ?_⟩
        intro m hm a2 ha2
        exact hlt m hm ⟨a2, dialOk a2⟩ (by simp [ha2])
    · rintro ⟨⟨a, ha, hh⟩, hlt⟩
      refine ⟨⟨⟨a, dialOk a⟩, by simp [ha], hh⟩, ?_⟩
      intro m hm b hb
      cases ha2 : L[m]? with
      | none => simp [ha2] at hb
      | some a2 =>
        simp [ha2] at hb
        subst hb
        exact hlt m hm a2 ha2
  · rw [firstHealthy_none]
    simp

theorem main_pass_fresh (net : Net) (cfg : MainGo.Config) (sched : List Nat)
    (hs : sched.Perm (List.range cfg.Servers.length)) :
    (MainGo.checkAllBackends net sched (MainGo.NewProxyServer cfg)).1.backends =
      cfg.Servers.map (fun a => (⟨a, net.dialOk a⟩ : Backend)) := by
  simp only [MainGo.checkAllBackends, MainGo.NewProxyServer]
  rw [fanOut_perm _ _ _ (by simpa using hs)]
  simp [List.map_map, Function.comp_def, main_probe_fresh]

theorem proxy_pass_fresh (net : Net) (l : String) (L : List String) (sched : List Nat)
    (hs : sched.Perm (List.range L.length))
    (hc : ∀ a ∈ L, net.dialOk a = true → net.probeCloseOk a = true) :
    (ProxyGo.checkAllBackends net sched (ProxyGo.NewProxyServer l L)).1.backends =
      L.map (fun a => (⟨a, net.dialOk a⟩ : Backend)) := by
  simp only [ProxyGo.checkAllBackends, ProxyGo.NewProxyServer]
  rw [fanOut_perm _ _ _ (by simpa using hs)]
  rw [List.map_map]
  apply List.map_congr_left
  intro a ha
  exact proxy_probe_fresh net a (hc a ha)

/-- Build a proxy with `NewProxyServer` from the address list, let one health-check pass
complete (its probes finishing in any order `sched`), then call `getHealthyBackend`. In
`main.go` the result is the backend at position `i` exactly when the address at `i` is
reachable and no address before it is, and nil exactly when no address is reachable; the
pool has the addresses of the list, in its order. In `proxy.go` this is so on the inputs
where closing the probe connection returns no error for the addresses that are
reachable. -/
theorem first_reachable_after_one_pass (net : Net) (cfg : MainGo.Config) (l : String)
    (sched : List Nat) (hs : sched.Perm (List.range cfg.Servers.length)) :
    ((∀ i, (MainGo.getHealthyBackend
          (MainGo.checkAllBackends net sched (MainGo.NewProxyServer cfg)).1).1 = some i ↔
        (∃ a, cfg.Servers[i]? = some a ∧ net.dialOk a = true) ∧
          ∀ m, m < i → ∀ a, cfg.Servers[m]? = some a → net.dialOk a = false) ∧
      ((MainGo.getHealthyBackend
          (MainGo.checkAllBackends net sched (MainGo.NewProxyServer cfg)).1).1 = none ↔
        ∀ a ∈ cfg.Servers, net.dialOk a = false) ∧
      (MainGo.checkAllBackends net sched (MainGo.NewProxyServer cfg)).1.backends.map
        Backend.Address = cfg.Servers) ∧
    ((∀ a ∈ cfg.Servers, net.dialOk a = true → net.probeCloseOk a = true) →
      (∀ i, (ProxyGo.getHealthyBackend
          (ProxyGo.checkAllBackends net sched (ProxyGo.NewProxyServer l cfg.Servers)).1).1 =
            some i ↔
        (∃ a, cfg.Servers[i]? = some a ∧ net.dialOk a = true) ∧
          ∀ m, m < i → ∀ a, cfg.Servers[m]? = some a → net.dialOk a = false) ∧
      ((ProxyGo.getHealthyBackend
          (ProxyGo.checkAllBackends net sched (ProxyGo.NewProxyServer l cfg.Servers)).1).1 =
            none ↔
        ∀ a ∈ cfg.Servers, net.dialOk a = false) ∧
      (ProxyGo.checkAllBackends net sched
        (ProxyGo.NewProxyServer l cfg.Servers)).1.backends.map Backend.Address =
          cfg.Servers) := by
  constructor
  · simp only [MainGo.getHealthyBackend]
    rw [main_pass_fresh net cfg sched hs]
    refine ⟨(firstHealthy_probed net.dialOk cfg.Servers).1,
      (firstHealthy_probed net.dialOk cfg.Servers).2, ?_⟩
    simp [List.map_map, Function.comp_def]
  · intro hc
    simp only [ProxyGo.getHealthyBackend]
    rw [proxy_pass_fresh net l cfg.Servers sched hs hc]
    refine ⟨(firstHealthy_probed net.dialOk cfg.Servers).1,
      (firstHealthy_probed net.dialOk cfg.Servers).2, ?_⟩
    simp [List.map_map, Function.comp_def]

/-- C6 at the address list `["a:1", "b:2"]`, `a:1` unreachable and `b:2` reachable, with
`conn.Close()` on the probe connection returning an error: after `NewProxyServer` and one
complete health-check pass, `getHealthyBackend` of `proxy.go` returns nil although `b:2`
is reachable; `main.go`, on the same input, returns the backend at position 1. -/
theorem C6_proxy_reachable_backend_not_selected :
    (Net.mk (fun a => a == "b:2") (fun _ => false)).dialOk "b:2" = true ∧
    (ProxyGo.getHealthyBackend (ProxyGo.checkAllBackends
      (Net.mk (fun a => a == "b:2") (fun _ => false)) [0, 1]
        (ProxyGo.NewProxyServer ":25565" ["a:1", "b:2"])).1).1 = none ∧
    (MainGo.getHealthyBackend (MainGo.checkAllBackends
      (Net.mk (fun a => a == "b:2") (fun _ => false)) [0, 1]
        (MainGo.NewProxyServer ⟨":25565", 5, 3, 5, ["a:1", "b:2"]⟩)).1).1 = some 1 := by
  decide

/-- After a completed health-check pass under `net1` (its probes finishing in any order
`sched1`), a pass under `net2` (probing the positions `sched2`, whichever they are) logs
nothing and changes no backend when every dial has the same outcome under both, in
`main.go`; in `proxy.go` when moreover closing the probe connection has the same outcome
for every address under both. -/
theorem second_pass_silent_of_same_outcomes (net1 net2 : Net) (l : String) (cfg : MainGo.Config)
    (pool : List Backend) (sched1 sched2 : List Nat)
    (hs1 : sched1.Perm (List.range pool.length))
    (hreach : ∀ a, net2.dialOk a = net1.dialOk a) :
    ((MainGo.checkAllBackends net2 sched2
          (MainGo.checkAllBackends net1 sched1 ⟨l, pool, cfg⟩).1).2 = [] ∧
      (MainGo.checkAllBackends net2 sched2
          (MainGo.checkAllBackends net1 sched1 ⟨l, pool, cfg⟩).1).1 =
        (MainGo.checkAllBackends net1 sched1 ⟨l, pool, cfg⟩).1) ∧
    ((∀ a, net2.probeCloseOk a = net1.probeCloseOk a) →
      (ProxyGo.checkAllBackends net2 sched2
          (ProxyGo.checkAllBackends net1 sched1 ⟨l, pool⟩).1).2 = [] ∧
      (ProxyGo.checkAllBackends net2 sched2
          (ProxyGo.checkAllBackends net1 sched1 ⟨l, pool⟩).1).1 =
        (ProxyGo.checkAllBackends net1 sched1 ⟨l, pool⟩).1) := by
  constructor
  · simp only [MainGo.checkAllBackends]
    rw [fanOut_perm _ _ _ hs1, fanOut_stable]
    · exact ⟨rfl, rfl⟩
    · intro b hb
      obtain ⟨b0, _, rfl⟩ := List.mem_map.1 hb
      exact main_probe_again net1 net2 hreach b0
  · intro hclose
    simp only [ProxyGo.checkAllBackends]
    rw [fanOut_perm _ _ _ hs1, fanOut_stable]
    · exact ⟨rfl, rfl⟩
    · intro b hb
      obtain ⟨b0, _, rfl⟩ := List.mem_map.1 hb
      exact proxy_probe_again net1 net2 hreach hclose b0

/-- C7: in `main.go` and in `proxy.go`, for every pool state and every network, after a
completed health-check pass (its probes finishing in any order `sched1`) a second pass
under the same network (probing the positions `sched2`, whichever they are, in
particular all of them) logs no UP or DOWN line and leaves every backend as the first
pass left it. -/
theorem C7_second_pass_is_silent (net : Net) (l : String) (cfg : MainGo.Config)
    (pool : List Backend) (sched1 sched2 : List Nat)
    (hs1 : sched1.Perm (List.range pool.length)) :
    ((MainGo.checkAllBackends net sched2
          (MainGo.checkAllBackends net sched1 ⟨l, pool, cfg⟩).1).2 = [] ∧
      (MainGo.checkAllBackends net sched2
          (MainGo.checkAllBackends net sched1 ⟨l, pool, cfg⟩).1).1 =
        (MainGo.checkAllBackends net sched1 ⟨l, pool, cfg⟩).1) ∧
    ((ProxyGo.checkAllBackends net sched2
          (ProxyGo.checkAllBackends net sched1 ⟨l, pool⟩).1).2 = [] ∧
      (ProxyGo.checkAllBackends net sched2
          (ProxyGo.checkAllBackends net sched1 ⟨l, pool⟩).1).1 =
        (ProxyGo.checkAllBackends net sched1 ⟨l, pool⟩).1) :=
  ⟨(second_pass_silent_of_same_outcomes net net l cfg pool sched1 sched2 hs1
      (fun _ => rfl)).1,
    (second_pass_silent_of_same_outcomes net net l cfg pool sched1 sched2 hs1
      (fun _ => rfl)).2 (fun _ => rfl)⟩

/-- C7 at a pool of two backends, the first healthy but unreachable, the second unhealthy
but reachable: the first pass logs UP and DOWN, the second pass logs nothing, in both
files. -/
theorem C7_second_pass_is_silent_witness :
    [1, 0].Perm (List.range 2) ∧
    (MainGo.checkAllBackends ⟨fun a => a == "b:2", fun _ => true⟩ [1, 0]
      ⟨":25565", [⟨"a:1", true⟩, ⟨"b:2", false⟩], ⟨":25565", 5, 3, 5, ["a:1", "b:2"]⟩⟩).2 =
        [Event.logUp "b:2", Event.logDown "a:1"] ∧
    (ProxyGo.checkAllBackends ⟨fun a => a == "b:2", fun _ => true⟩ [1, 0]
      ⟨":25565", [⟨"a:1", true⟩, ⟨"b:2", false⟩]⟩).2 =
        [Event.logUp "b:2", Event.logDown "a:1"] ∧
    (MainGo.checkAllBackends ⟨fun a => a == "b:2", fun _ => true⟩ [0, 1]
      (MainGo.checkAllBackends ⟨fun a => a == "b:2", fun _ => true⟩ [1, 0]
        ⟨":25565", [⟨"a:1", true⟩, ⟨"b:2", false⟩],
          ⟨":25565", 5, 3, 5, ["a:1", "b:2"]⟩⟩).1).2 = [] ∧
    (ProxyGo.checkAllBackends ⟨fun a => a == "b:2", fun _ => true⟩ [0, 1]
      (ProxyGo.checkAllBackends ⟨fun a => a == "b:2", fun _ => true⟩ [1, 0]
        ⟨":25565", [⟨"a:1", true⟩, ⟨"b:2", false⟩]⟩).1).2 = [] :=
  ⟨by decide, by decide, by decide,
    (C7_second_pass_is_silent ⟨fun a => a == "b:2", fun _ => true⟩ ":25565"
      ⟨":25565", 5, 3, 5, ["a:1", "b:2"]⟩ [⟨"a:1", true⟩, ⟨"b:2", false⟩] [1, 0] [0, 1]
      (by decide)).1.1,
    (C7_second_pass_is_silent ⟨fun a => a == "b:2", fun _ => true⟩ ":25565"
      ⟨":25565", 5, 3, 5, ["a:1", "b:2"]⟩ [⟨"a:1", true⟩, ⟨"b:2", false⟩] [1, 0] [0, 1]
      (by decide)).2.1⟩

/-- In `proxy.go`, a pass in which `conn.Close()` on the probe connection returns an error
does not record the successful dial: the only backend, unhealthy and reachable, is still
unhealthy after it, and the next pass, in which the close returns no error, logs UP. -/
theorem proxy_pass_after_probe_close_error :
    (ProxyGo.checkAllBackends (Net.mk (fun _ => true) (fun _ => false)) [0]
      ⟨":25565", [⟨"a:1", false⟩]⟩).1 = ⟨":25565", [⟨"a:1", false⟩]⟩ ∧
    ProxyGo.checkAllBackends (Net.mk (fun _ => true) (fun _ => true)) [0]
      (ProxyGo.checkAllBackends (Net.mk (fun _ => true) (fun _ => false)) [0]
        ⟨":25565", [⟨"a:1", false⟩]⟩).1 =
      (⟨":25565", [⟨"a:1", true⟩]⟩, [Event.logUp "a:1"]) :=
  ⟨by decide, by decide⟩

/-! ## UP and DOWN lines of one backend -/

theorem transitions_append (t u : List Event) :
    transitions (t ++ u) = transitions t ++ transitions u := by
  simp [transitions]

theorem downsFollowUps_mono (a : String) (T : List Event)
    (h : downsFollowUps a false T = true) : downsFollowUps a true T = true := by
  cases T with
  | nil => rfl
  | cons e es =>
    unfold downsFollowUps at h ⊢
    by_cases h1 : e = Event.logUp a
    · simpa [h1] using h
    · by_cases h2 : e = Event.logDown a
      · simp [h2] at h
      · simp [h1, h2] at h

theorem FlagOp.downsFollowUps_applyAll (a : String) (ops : List FlagOp) (h : Bool) :
    downsFollowUps a h (FlagOp.applyAll a h ops).2 = true := by
  induction ops generalizing h with
  | nil => rfl
  | cons op rest ih =>
    cases op <;> cases h <;>
      simp [FlagOp.applyAll, FlagOp.apply, downsFollowUps, ih, downsFollowUps_mono]

theorem getLast?_append_of_ne_nil (t u : List Event) (hu : u ≠ []) :
    (t ++ u).getLast? = u.getLast? := by
  rw [List.getLast?_eq_getLast _ hu, List.getLast?_eq_getLast _ (by simp [hu]),
    List.getLast_append_of_ne_nil]

theorem FlagOp.flag_imp_last_up (a : String) (ops : List FlagOp) (h : Bool)
    (hf : (FlagOp.applyAll a h ops).1 = true) :
    ((FlagOp.applyAll a h ops).2 = [] ∧ h = true) ∨
      (FlagOp.applyAll a h ops).2.getLast? = some (Event.logUp a) := by
  induction ops generalizing h with
  | nil => exact Or.inl ⟨rfl, hf⟩
  | cons op rest ih =>
    simp only [FlagOp.applyAll] at hf ⊢
    rcases ih _ hf with ⟨hnil, hflag⟩ | hlast
    · rw [hnil]
      cases op <;> cases h <;> simp [FlagOp.apply] at hflag ⊢
    · right
      have hne : (FlagOp.applyAll a (op.apply a h).1 rest).2 ≠ [] := by
        intro h0
        simp [h0] at hlast
      rw [getLast?_append_of_ne_nil _ _ hne]
      exact hlast

theorem FlagOp.alternates_applyAll (a : String) (ops : List FlagOp) (h : Bool)
    (hnc : ∀ op ∈ ops, op ≠ FlagOp.clear) :
    alternates a (!h) (FlagOp.applyAll a h ops).2 = true ∧
      ((FlagOp.applyAll a h ops).1 = true ↔
        ((FlagOp.applyAll a h ops).2 = [] ∧ h = true) ∨
          (FlagOp.applyAll a h ops).2.getLast? = some (Event.logUp a)) := by
  induction ops generalizing h with
  | nil => simp [FlagOp.applyAll, alternates]
  | cons op rest ih =>
    have hrest : ∀ op ∈ rest, op ≠ FlagOp.clear := fun o ho => hnc o (List.mem_cons_of_mem _ ho)
    have hop : op ≠ FlagOp.clear := hnc op (List.mem_cons_self _ _)
    simp only [FlagOp.applyAll]
    obtain ⟨ih1, ih2⟩ := ih (op.apply a h).1 hrest
    constructor
    · cases op <;> cases h <;> simp_all [FlagOp.apply, alternates]
    · rw [ih2]
      by_cases hne : (FlagOp.applyAll a (op.apply a h).1 rest).2 = []
      · rw [hne]
        cases op <;> cases h <;> simp_all [FlagOp.apply]
      · rw [getLast?_append_of_ne_nil _ _ hne]
        simp [hne]

theorem main_applyStep_flagOp (l : String) (cfg : MainGo.Config) (a : String) (h : Bool)
    (st : Step) :
    (MainGo.applyStep ⟨l, [⟨a, h⟩], cfg⟩ st).1 =
        ⟨l, [⟨a, ((MainGo.flagOp st).apply a h).1⟩], cfg⟩ ∧
      transitions (MainGo.applyStep ⟨l, [⟨a, h⟩], cfg⟩ st).2 =
        ((MainGo.flagOp st).apply a h).2 := by
  cases st with
  | probe d c =>
    cases d <;> cases h <;>
      simp [MainGo.applyStep, MainGo.checkAllBackends.probeAt, onCell,
        MainGo.checkAllBackends.probe, MainGo.flagOp, FlagOp.apply, transitions,
        Backend.SetHealthy, Backend.IsHealthy]
  | relayDialFails =>
    cases h <;>
      simp [MainGo.applyStep, MainGo.handleConnection, MainGo.getHealthyBackend, firstHealthy,
        addressAt, setHealthyAt, MainGo.handleConnection.closeClient, MainGo.flagOp,
        FlagOp.apply, transitions, Backend.SetHealthy, Backend.IsHealthy]

theorem main_applySteps_flagOps (l : String) (cfg : MainGo.Config) (a : String)
    (steps : List Step) (h : Bool) :
    (MainGo.applySteps steps ⟨l, [⟨a, h⟩], cfg⟩).1 =
        ⟨l, [⟨a, (FlagOp.applyAll a h (steps.map MainGo.flagOp)).1⟩], cfg⟩ ∧
      transitions (MainGo.applySteps steps ⟨l, [⟨a, h⟩], cfg⟩).2 =
        (FlagOp.applyAll a h (steps.map MainGo.flagOp)).2 := by
  induction steps generalizing h with
  | nil => exact ⟨rfl, rfl⟩
  | cons st rest ih =>
    obtain ⟨h1, h2⟩ := main_applyStep_flagOp l cfg a h st
    simp only [MainGo.applySteps, List.map_cons, FlagOp.applyAll, transitions_append]
    rw [h1, h2]
    obtain ⟨h3, h4⟩ := ih ((MainGo.flagOp st).apply a h).1
    rw [h3, h4]
    exact ⟨rfl, rfl⟩

theorem proxy_applyStep_flagOp (errs : Errs) (l : String) (a : String) (h : Bool)
    (st : Step) :
    (ProxyGo.applyStep errs ⟨l, [⟨a, h⟩]⟩ st).1 =
        ⟨l, [⟨a, ((ProxyGo.flagOp st).apply a h).1⟩]⟩ ∧
      transitions (ProxyGo.applyStep errs ⟨l, [⟨a, h⟩]⟩ st).2 =
        ((ProxyGo.flagOp st).apply a h).2 := by
  cases st with
  | probe d c =>
    cases d <;> cases c <;> cases h <;>
      simp [ProxyGo.applyStep, ProxyGo.checkAllBackends.probeAt, onCell,
        ProxyGo.checkAllBackends.probe, ProxyGo.flagOp, FlagOp.apply, transitions,
        Backend.SetHealthy, Backend.IsHealthy]
  | relayDialFails =>
    cases h <;> cases hc : errs.closeErr Conn.client <;>
      simp [ProxyGo.applyStep, ProxyGo.handleConnection, ProxyGo.getHealthyBackend,
        firstHealthy, addressAt, setHealthyAt, ProxyGo.handleConnection.closeClient, hc,
        ProxyGo.flagOp, FlagOp.apply, transitions, Backend.SetHealthy, Backend.IsHealthy]

theorem proxy_applySteps_flagOps (errs : Errs) (l : String) (a : String)
    (steps : List Step) (h : Bool) :
    (ProxyGo.applySteps errs steps ⟨l, [⟨a, h⟩]⟩).1 =
        ⟨l, [⟨a, (FlagOp.applyAll a h (steps.map ProxyGo.flagOp)).1⟩]⟩ ∧
      transitions (ProxyGo.applySteps errs steps ⟨l, [⟨a, h⟩]⟩).2 =
        (FlagOp.applyAll a h (steps.map ProxyGo.flagOp)).2 := by
  induction steps generalizing h with
  | nil => exact ⟨rfl, rfl⟩
  | cons st rest ih =>
    obtain ⟨h1, h2⟩ := proxy_applyStep_flagOp errs l a h st
    simp only [ProxyGo.applySteps, List.map_cons, FlagOp.applyAll, transitions_append]
    rw [h1, h2]
    obtain ⟨h3, h4⟩ := ih ((ProxyGo.flagOp st).apply a h).1
    rw [h3, h4]
    exact ⟨rfl, rfl⟩

theorem main_flagOp_ne_clear (steps : List Step)
    (hs : ∀ st ∈ steps, st ≠ Step.relayDialFails) :
    ∀ op ∈ steps.map MainGo.flagOp, op ≠ FlagOp.clear := by
  intro op hop
  obtain ⟨st, hst, rfl⟩ := List.mem_map.1 hop
  have := hs st hst
  cases st with
  | probe d c => cases d <;> simp [MainGo.flagOp]
  | relayDialFails => exact absurd rfl this

theorem proxy_flagOp_ne_clear (steps : List Step)
    (hs : ∀ st ∈ steps, st ≠ Step.relayDialFails) :
    ∀ op ∈ steps.map ProxyGo.flagOp, op ≠ FlagOp.clear := by
  intro op hop
  obtain ⟨st, hst, rfl⟩ := List.mem_map.1 hop
  have := hs st hst
  cases st with
  | probe d c => cases d <;> cases c <;> simp [ProxyGo.flagOp]
  | relayDialFails => exact absurd rfl this

/-- C10, as the code has it: one backend, unhealthy at first, taken through any finite list
of steps (health probes of either outcome, calls of `handleConnection` whose dial fails),
in `main.go` and in `proxy.go`. `handleConnection` clears the flag without logging DOWN,
so in general only this holds: the lines logged are UP and DOWN lines of that backend,
the first is UP, every DOWN comes directly after an UP, and whenever the flag is set the
last line is UP. When all steps are health probes, UP and DOWN strictly alternate
beginning with UP, and the flag is set exactly when the last line is UP. -/
theorem C10_up_down_lines_of_one_backend (errs : Errs) (l : String) (cfg : MainGo.Config)
    (a : String) (steps : List Step) :
    (∃ h, (MainGo.applySteps steps ⟨l, [⟨a, false⟩], cfg⟩).1 = ⟨l, [⟨a, h⟩], cfg⟩ ∧
      downsFollowUps a false
        (transitions (MainGo.applySteps steps ⟨l, [⟨a, false⟩], cfg⟩).2) = true ∧
      (h = true →
        (transitions (MainGo.applySteps steps ⟨l, [⟨a, false⟩], cfg⟩).2).getLast? =
          some (Event.logUp a)) ∧
      ((∀ st ∈ steps, st ≠ Step.relayDialFails) →
        alternates a true
          (transitions (MainGo.applySteps steps ⟨l, [⟨a, false⟩], cfg⟩).2) = true ∧
        (h = true ↔
          (transitions (MainGo.applySteps steps ⟨l, [⟨a, false⟩], cfg⟩).2).getLast? =
            some (Event.logUp a)))) ∧
    (∃ h, (ProxyGo.applySteps errs steps ⟨l, [⟨a, false⟩]⟩).1 = ⟨l, [⟨a, h⟩]⟩ ∧
      downsFollowUps a false
        (transitions (ProxyGo.applySteps errs steps ⟨l, [⟨a, false⟩]⟩).2) = true ∧
      (h = true →
        (transitions (ProxyGo.applySteps errs steps ⟨l, [⟨a, false⟩]⟩).2).getLast? =
          some (Event.logUp a)) ∧
      ((∀ st ∈ steps, st ≠ Step.relayDialFails) →
        alternates a true
          (transitions (ProxyGo.applySteps errs steps ⟨l, [⟨a, false⟩]⟩).2) = true ∧
        (h = true ↔
          (transitions (ProxyGo.applySteps errs steps ⟨l, [⟨a, false⟩]⟩).2).getLast? =
            some (Event.logUp a)))) := by
  constructor
  · obtain ⟨h1, h2⟩ := main_applySteps_flagOps l cfg a steps false
    refine ⟨_, h1, ?_, ?_, ?_⟩
    · rw [h2]
      exact FlagOp.downsFollowUps_applyAll a _ false
    · intro hf
      rw [h2]
      rcases FlagOp.flag_imp_last_up a _ false hf with ⟨_, habs⟩ | hlast
      · exact absurd habs (by simp)
      · exact hlast
    · intro hs
      obtain ⟨h3, h4⟩ :=
        FlagOp.alternates_applyAll a _ false (main_flagOp_ne_clear steps hs)
      rw [h2]
      exact ⟨by simpa using h3, by simpa using h4⟩
  · obtain ⟨h1, h2⟩ := proxy_applySteps_flagOps errs l a steps false
    refine ⟨_, h1, ?_, ?_, ?_⟩
    · rw [h2]
      exact FlagOp.downsFollowUps_applyAll a _ false
    · intro hf
      rw [h2]
      rcases FlagOp.flag_imp_last_up a _ false hf with ⟨_, habs⟩ | hlast
      · exact absurd habs (by simp)
      · exact hlast
    · intro hs
      obtain ⟨h3, h4⟩ :=
        FlagOp.alternates_applyAll a _ false (proxy_flagOp_ne_clear steps hs)
      rw [h2]
      exact ⟨by simpa using h3, by simpa using h4⟩

/-- C10 at the probes up, up, down, down, up of one backend in `main.go`: the lines
UP, DOWN, UP alternate. -/
theorem C10_up_down_lines_of_one_backend_witness :
    (∀ st ∈ [Step.probe true true, Step.probe true true, Step.probe false true,
      Step.probe false true, Step.probe true true], st ≠ Step.relayDialFails) ∧
    transitions (MainGo.applySteps [Step.probe true true, Step.probe true true,
        Step.probe false true, Step.probe false true, Step.probe true true]
        ⟨":25565", [⟨"a:1", false⟩], ⟨":25565", 5, 3, 5, ["a:1"]⟩⟩).2 =
      [Event.logUp "a:1", Event.logDown "a:1", Event.logUp "a:1"] ∧
    alternates "a:1" true (transitions (MainGo.applySteps [Step.probe true true,
        Step.probe true true, Step.probe false true, Step.probe false true,
        Step.probe true true]
        ⟨":25565", [⟨"a:1", false⟩], ⟨":25565", 5, 3, 5, ["a:1"]⟩⟩).2) = true := by
  obtain ⟨_, _, _, _, h⟩ := (C10_up_down_lines_of_one_backend
    ⟨fun _ => false, fun _ => false, fun _ => false⟩ ":25565" ⟨":25565", 5, 3, 5, ["a:1"]⟩
    "a:1" [Step.probe true true, Step.probe true true, Step.probe false true,
      Step.probe false true, Step.probe true true]).1
  exact ⟨by decide, by decide, (h (by decide)).1⟩

/-- C10 fails in `main.go` and in `proxy.go`: a successful probe, a call of
`handleConnection` whose dial fails, a successful probe. The lines logged are UP, UP; and
after the second step the flag is clear although the last line logged is UP. -/
theorem C10_counterexample_relay_clears_without_down :
    transitions (MainGo.applySteps
        [Step.probe true true, Step.relayDialFails, Step.probe true true]
        ⟨":25565", [⟨"a:1", false⟩], ⟨":25565", 5, 3, 5, ["a:1"]⟩⟩).2 =
      [Event.logUp "a:1", Event.logUp "a:1"] ∧
    (MainGo.applySteps [Step.probe true true, Step.relayDialFails]
        ⟨":25565", [⟨"a:1", false⟩], ⟨":25565", 5, 3, 5, ["a:1"]⟩⟩).1.backends =
      [⟨"a:1", false⟩] ∧
    transitions (MainGo.applySteps [Step.probe true true, Step.relayDialFails]
        ⟨":25565", [⟨"a:1", false⟩], ⟨":25565", 5, 3, 5, ["a:1"]⟩⟩).2 =
      [Event.logUp "a:1"] ∧
    transitions (ProxyGo.applySteps ⟨fun _ => false, fun _ => false, fun _ => false⟩
        [Step.probe true true, Step.relayDialFails, Step.probe true true]
        ⟨":25565", [⟨"a:1", false⟩]⟩).2 =
      [Event.logUp "a:1", Event.logUp "a:1"] := by
  decide

/-! ## The connected session under every schedule -/

theorem closesAfterDone_emit (t : List Event) (e : Event) (h : ClosesAfterDone t)
    (he : ∀ c, e = Event.close c → Event.wgDone 1 ∈ t ∧ Event.wgDone 2 ∈ t) :
    ClosesAfterDone (t ++ [e]) := by
  intro pre c post heq
  rcases List.eq_nil_or_concat post with hnil | ⟨post2, x, hx⟩
  · subst hnil
    have h2 := List.append_inj' heq (by simp)
    obtain ⟨h3, h4⟩ := h2
    subst h3
    exact he c (by simpa using h4)
  · rw [List.concat_eq_append] at hx
    subst hx
    have h2 : t ++ [e] = (pre ++ Event.close c :: post2) ++ [x] := by simpa using heq
    have h3 := (List.append_inj' h2 (by simp)).1
    exact h pre c post2 h3

theorem closesAfterDone_start (i : Nat) (addr : String) :
    ClosesAfterDone [Event.dial i addr, Event.logOpened addr] := by
  intro pre c post heq
  have hmem : Event.close c ∈ [Event.dial i addr, Event.logOpened addr] := by
    rw [heq]
    simp
  simp at hmem

theorem main_step_inv (start : List Event) (tid : Tid) (s : Session)
    (h : s.Inv start MainGo.handleConnection.mainTrace) :
    (MainGo.handleConnection.step tid s).Inv start MainGo.handleConnection.mainTrace := by
  obtain ⟨pc, t1, t2, wg, trace⟩ := s
  obtain ⟨hmain, hctl, hd1, hd2, hord⟩ := h
  simp only at hmain hd1 hd2 hord
  cases tid with
  | main =>
    cases pc with
    | atWait =>
      simp only [Session.Ctl] at hctl
      by_cases hwg : wg = 0
      · have ht1 : t1 = TaskPc.finished := by
          cases t1 <;> simp_all [TaskPc.pending]
        have ht2 : t2 = TaskPc.finished := by
          cases t2 <;> simp_all [TaskPc.pending]
        simp only [MainGo.handleConnection.step, Session.emit, hwg, if_true]
        refine ⟨?_, ?_, ?_, ?_, ?_⟩
        · simp [List.filter_append, hmain, isMainEvent, MainGo.handleConnection.mainTrace]
        · simp [Session.Ctl, ht1, ht2]
        · intro _
          simp [hd1 ht1]
        · intro _
          simp [hd2 ht2]
        · exact closesAfterDone_emit _ _ hord (by simp)
      · simp only [MainGo.handleConnection.step, hwg, if_false]
        exact ⟨hmain, by simpa [Session.Ctl] using hctl, hd1, hd2, hord⟩
    | returned =>
      exact ⟨hmain, hctl, hd1, hd2, hord⟩
    | atWgAdd | atGo1 | atGo2 | atLogClosed | atCloseBackend | atCloseClient =>
      simp only [Session.Ctl] at hctl
      simp only [MainGo.handleConnection.step, Session.emit]
      refine ⟨?_, ?_, ?_, ?_, ?_⟩
      · simp [List.filter_append, hmain, isMainEvent, MainGo.handleConnection.mainTrace]
      · simp_all [Session.Ctl, TaskPc.pending]
      · intro h1
        simp_all
      · intro h1
        simp_all
      · apply closesAfterDone_emit _ _ hord
        intro c hc
        first
          | exact ⟨hd1 hctl.2.1, hd2 hctl.2.2⟩
          | simp at hc
  | copy1 =>
    cases t1 with
    | atCopy | atDone =>
      simp only [MainGo.handleConnection.step, Session.emit]
      refine ⟨?_, ?_, ?_, ?_, ?_⟩
      · simpa [List.filter_append, isMainEvent] using hmain
      · cases pc <;> simp_all [Session.Ctl, TaskPc.pending]
      · intro h1
        simp_all
      · intro h1
        simp_all
      · exact closesAfterDone_emit _ _ hord (by simp)
    | notStarted | atCloseWrite | finished =>
      exact ⟨hmain, hctl, hd1, hd2, hord⟩
  | copy2 =>
    cases t2 with
    | atCopy | atDone =>
      simp only [MainGo.handleConnection.step, Session.emit]
      refine ⟨?_, ?_, ?_, ?_, ?_⟩
      · simpa [List.filter_append, isMainEvent] using hmain
      · cases pc <;> simp_all [Session.Ctl, TaskPc.pending]
      · intro h1
        simp_all
      · intro h1
        simp_all
      · exact closesAfterDone_emit _ _ hord (by simp)
    | notStarted | atCloseWrite | finished =>
      exact ⟨hmain, hctl, hd1, hd2, hord⟩

theorem main_run_inv (start : List Event) (sched : List Tid) (s : Session)
    (h : s.Inv start MainGo.handleConnection.mainTrace) :
    (MainGo.handleConnection.run sched s).Inv start MainGo.handleConnection.mainTrace := by
  induction sched generalizing s with
  | nil => exact h
  | cons tid rest ih => exact ih _ (main_step_inv start tid s h)

theorem proxy_step_inv (errs : Errs) (start : List Event) (tid : Tid) (s : Session)
    (h : s.Inv start (ProxyGo.handleConnection.mainTrace errs)) :
    (ProxyGo.handleConnection.step errs tid s).Inv start
      (ProxyGo.handleConnection.mainTrace errs) := by
  obtain ⟨pc, t1, t2, wg, trace⟩ := s
  obtain ⟨hmain, hctl, hd1, hd2, hord⟩ := h
  simp only at hmain hd1 hd2 hord
  cases tid with
  | main =>
    cases pc with
    | atWait =>
      simp only [Session.Ctl] at hctl
      by_cases hwg : wg = 0
      · have ht1 : t1 = TaskPc.finished := by
          cases t1 <;> simp_all [TaskPc.pending]
        have ht2 : t2 = TaskPc.finished := by
          cases t2 <;> simp_all [TaskPc.pending]
        simp only [ProxyGo.handleConnection.step, Session.emit, hwg, if_true]
        refine ⟨?_, ?_, ?_, ?_, ?_⟩
        · simp [List.filter_append, hmain, isMainEvent, ProxyGo.handleConnection.mainTrace]
        · simp [Session.Ctl, ht1, ht2]
        · intro _
          simp [hd1 ht1]
        · intro _
          simp [hd2 ht2]
        · exact closesAfterDone_emit _ _ hord (by simp)
      · simp only [ProxyGo.handleConnection.step, hwg, if_false]
        exact ⟨hmain, by simpa [Session.Ctl] using hctl, hd1, hd2, hord⟩
    | returned =>
      exact ⟨hmain, hctl, hd1, hd2, hord⟩
    | atWgAdd | atGo1 | atGo2 | atLogClosed =>
      simp only [Session.Ctl] at hctl
      simp only [ProxyGo.handleConnection.step, Session.emit]
      refine ⟨?_, ?_, ?_, ?_, ?_⟩
      · simp [List.filter_append, hmain, isMainEvent, ProxyGo.handleConnection.mainTrace]
      · simp_all [Session.Ctl, TaskPc.pending]
      · intro h1
        simp_all
      · intro h1
        simp_all
      · apply closesAfterDone_emit _ _ hord
        intro c hc
        simp at hc
    | atCloseBackend =>
      simp only [Session.Ctl] at hctl
      have hc1 : ClosesAfterDone (trace ++ [Event.close Conn.backend]) :=
        closesAfterDone_emit _ _ hord (fun _ _ => ⟨hd1 hctl.2.1, hd2 hctl.2.2⟩)
      cases hce : errs.closeErr Conn.backend <;>
        simp only [ProxyGo.handleConnection.step, Session.emit, hce, if_true, if_false,
          Bool.false_eq_true]
      · refine ⟨?_, ?_, ?_, ?_, hc1⟩
        · simp [List.filter_append, hmain, isMainEvent, ProxyGo.handleConnection.mainTrace,
            ProxyGo.handleConnection.closeBackend, hce]
        · simp_all [Session.Ctl]
        · intro _
          simp [hd1 hctl.2.1]
        · intro _
          simp [hd2 hctl.2.2]
      · refine ⟨?_, ?_, ?_, ?_, closesAfterDone_emit _ _ hc1 (by simp)⟩
        · simp [List.filter_append, hmain, isMainEvent, ProxyGo.handleConnection.mainTrace,
            ProxyGo.handleConnection.closeBackend, hce]
        · simp_all [Session.Ctl]
        · intro _
          simp [hd1 hctl.2.1]
        · intro _
          simp [hd2 hctl.2.2]
    | atCloseClient =>
      simp only [Session.Ctl] at hctl
      have hc1 : ClosesAfterDone (trace ++ [Event.close Conn.client]) :=
        closesAfterDone_emit _ _ hord (fun _ _ => ⟨hd1 hctl.2.1, hd2 hctl.2.2⟩)
      cases hce : errs.closeErr Conn.client <;>
        simp only [ProxyGo.handleConnection.step, Session.emit, hce, if_true, if_false,
          Bool.false_eq_true]
      · refine ⟨?_, ?_, ?_, ?_, hc1⟩
        · simp [List.filter_append, hmain, isMainEvent, ProxyGo.handleConnection.mainTrace,
            ProxyGo.handleConnection.closeClient, hce]
        · simp_all [Session.Ctl]
        · intro _
          simp [hd1 hctl.2.1]
        · intro _
          simp [hd2 hctl.2.2]
      · refine ⟨?_, ?_, ?_, ?_, closesAfterDone_emit _ _ hc1 (by simp)⟩
        · simp [List.filter_append, hmain, isMainEvent, ProxyGo.handleConnection.mainTrace,
            ProxyGo.handleConnection.closeClient, hce]
        · simp_all [Session.Ctl]
        · intro _
          simp [hd1 hctl.2.1]
        · intro _
          simp [hd2 hctl.2.2]
  | copy1 =>
    cases t1 with
    | atCopy =>
      have hc1 : ClosesAfterDone (trace ++ [Event.copied 1 Conn.backend Conn.client]) :=
        closesAfterDone_emit _ _ hord (by simp)
      cases hce : errs.copyErr 1 <;>
        simp only [ProxyGo.handleConnection.step, Session.emit, hce, if_true, if_false,
          Bool.false_eq_true]
      · refine ⟨?_, ?_, ?_, ?_, hc1⟩
        · simpa [List.filter_append, isMainEvent] using hmain
        · cases pc <;> simp_all [Session.Ctl, TaskPc.pending]
        · intro h1
          simp_all
        · intro h1
          simp_all
      · refine ⟨?_, ?_, ?_, ?_, closesAfterDone_emit _ _ hc1 (by simp)⟩
        · simpa [List.filter_append, isMainEvent] using hmain
        · cases pc <;> simp_all [Session.Ctl, TaskPc.pending]
        · intro h1
          simp_all
        · intro h1
          simp_all
    | atCloseWrite =>
      have hc1 : ClosesAfterDone (trace ++ [Event.closeWrite 1 Conn.client]) :=
        closesAfterDone_emit _ _ hord (by simp)
      cases hce : errs.closeWriteErr 1 <;>
        simp only [ProxyGo.handleConnection.step, Session.emit, hce, if_true, if_false,
          Bool.false_eq_true]
      · refine ⟨?_, ?_, ?_, ?_, hc1⟩
        · simpa [List.filter_append, isMainEvent] using hmain
        · cases pc <;> simp_all [Session.Ctl, TaskPc.pending]
        · intro h1
          simp_all
        · intro h1
          simp_all
      · refine ⟨?_, ?_, ?_, ?_, closesAfterDone_emit _ _ hc1 (by simp)⟩
        · simpa [List.filter_append, isMainEvent] using hmain
        · cases pc <;> simp_all [Session.Ctl, TaskPc.pending]
        · intro h1
          simp_all
        · intro h1
          simp_all
    | atDone =>
      simp only [ProxyGo.handleConnection.step, Session.emit]
      refine ⟨?_, ?_, ?_, ?_, ?_⟩
      · simpa [List.filter_append, isMainEvent] using hmain
      · cases pc <;> simp_all [Session.Ctl, TaskPc.pending]
      · intro h1
        simp_all
      · intro h1
        simp_all
      · exact closesAfterDone_emit _ _ hord (by simp)
    | notStarted | finished =>
      exact ⟨hmain, hctl, hd1, hd2, hord⟩
  | copy2 =>
    cases t2 with
    | atCopy =>
      have hc1 : ClosesAfterDone (trace ++ [Event.copied 2 Conn.backend Conn.client]) :=
        closesAfterDone_emit _ _ hord (by simp)
      cases hce : errs.copyErr 2 <;>
        simp only [ProxyGo.handleConnection.step, Session.emit, hce, if_true, if_false,
          Bool.false_eq_true]
      · refine ⟨?_, ?_, ?_, ?_, hc1⟩
        · simpa [List.filter_append, isMainEvent] using hmain
        · cases pc <;> simp_all [Session.Ctl, TaskPc.pending]
        · intro h1
          simp_all
        · intro h1
          simp_all
      · refine ⟨?_, ?_, ?_, ?_, closesAfterDone_emit _ _ hc1 (by simp)⟩
        · simpa [List.filter_append, isMainEvent] using hmain
        · cases pc <;> simp_all [Session.Ctl, TaskPc.pending]
        · intro h1
          simp_all
        · intro h1
          simp_all
    | atCloseWrite =>
      have hc1 : ClosesAfterDone (trace ++ [Event.closeWrite 2 Conn.client]) :=
        closesAfterDone_emit _ _ hord (by simp)
      cases hce : errs.closeWriteErr 2 <;>
        simp only [ProxyGo.handleConnection.step, Session.emit, hce, if_true, if_false,
          Bool.false_eq_true]
      · refine ⟨?_, ?_, ?_, ?_, hc1⟩
        · simpa [List.filter_append, isMainEvent] using hmain
        · cases pc <;> simp_all [Session.Ctl, TaskPc.pending]
        · intro h1
          simp_all
        · intro h1
          simp_all
      · refine ⟨?_, ?_, ?_, ?_, closesAfterDone_emit _ _ hc1 (by simp)⟩
        · simpa [List.filter_append, isMainEvent] using hmain
        · cases pc <;> simp_all [Session.Ctl, TaskPc.pending]
        · intro h1
          simp_all
        · intro h1
          simp_all
    | atDone =>
      simp only [ProxyGo.handleConnection.step, Session.emit]
      refine ⟨?_, ?_, ?_, ?_, ?_⟩
      · simpa [List.filter_append, isMainEvent] using hmain
      · cases pc <;> simp_all [Session.Ctl, TaskPc.pending]
      · intro h1
        simp_all
      · intro h1
        simp_all
      · exact closesAfterDone_emit _ _ hord (by simp)
    | notStarted | finished =>
      exact ⟨hmain, hctl, hd1, hd2, hord⟩

theorem proxy_run_inv (errs : Errs) (start : List Event) (sched : List Tid) (s : Session)
    (h : s.Inv start (ProxyGo.handleConnection.mainTrace errs)) :
    (ProxyGo.handleConnection.run errs sched s).Inv start
      (ProxyGo.handleConnection.mainTrace errs) := by
  induction sched generalizing s with
  | nil => exact h
  | cons tid rest ih => exact ih _ (proxy_step_inv errs start tid s h)

theorem filterMap_phaseOf_main (t : List Event) :
    (t.filter isMainEvent).filterMap phaseOf = t.filterMap phaseOf := by
  induction t with
  | nil => rfl
  | cons e es ih =>
    cases e <;> simp [List.filter_cons, List.filterMap_cons, isMainEvent, phaseOf, ih]

theorem mem_filter_main (t : List Event) (e : Event) (he : isMainEvent e = true) :
    e ∈ t.filter isMainEvent ↔ e ∈ t := by
  simp [List.mem_filter, he]

theorem main_connected_inv (sched : List Tid) (i : Nat) (addr : String) :
    (MainGo.handleConnection.run sched
      ⟨.atWgAdd, .notStarted, .notStarted, 0, [Event.dial i addr, Event.logOpened addr]⟩).Inv
        [Event.dial i addr, Event.logOpened addr] MainGo.handleConnection.mainTrace := by
  apply main_run_inv
  refine ⟨?_, ?_, ?_, ?_, closesAfterDone_start i addr⟩
  · simp [isMainEvent, MainGo.handleConnection.mainTrace]
  · simp [Session.Ctl]
  · simp
  · simp

theorem proxy_connected_inv (errs : Errs) (sched : List Tid) (i : Nat) (addr : String) :
    (ProxyGo.handleConnection.run errs sched
      ⟨.atWgAdd, .notStarted, .notStarted, 0, [Event.dial i addr, Event.logOpened addr]⟩).Inv
        [Event.dial i addr, Event.logOpened addr]
        (ProxyGo.handleConnection.mainTrace errs) := by
  apply proxy_run_inv
  refine ⟨?_, ?_, ?_, ?_, closesAfterDone_start i addr⟩
  · simp [isMainEvent, ProxyGo.handleConnection.mainTrace]
  · simp [Session.Ctl]
  · simp
  · simp

theorem main_returned_trace (start : List Event) (s : Session)
    (h : s.Inv start MainGo.handleConnection.mainTrace) (hret : s.pc = MainPc.returned) :
    s.trace.filter isMainEvent = start ++
      [.wgAdd 2, .go 1 .client .backend, .go 2 .backend .client, .wgWait, .logClosed,
        .close .backend, .close .client] := by
  rw [h.1, hret]
  rfl

theorem proxy_returned_trace (errs : Errs) (start : List Event) (s : Session)
    (h : s.Inv start (ProxyGo.handleConnection.mainTrace errs))
    (hret : s.pc = MainPc.returned) :
    s.trace.filter isMainEvent = start ++
      ([.wgAdd 2, .go 1 .backend .client, .go 2 .backend .client, .wgWait, .logClosed] ++
        ProxyGo.handleConnection.closeBackend errs ++
          ProxyGo.handleConnection.closeClient errs) := by
  rw [h.1, hret]
  rfl

theorem main_fullSched_returns (net : Net) (p : MainGo.ProxyServer) :
    (MainGo.handleConnection net fullSched p).2.pc = MainPc.returned := by
  cases hsel : firstHealthy p.backends 0 with
  | none => rw [main_handleConnection_none net _ p hsel]
  | some i =>
    cases hd : net.dialOk (addressAt p.backends i) with
    | false => rw [main_handleConnection_dial_failed net _ p i hsel hd]
    | true =>
      rw [main_handleConnection_connected net _ p i hsel hd]
      rfl

theorem proxy_fullSched_returns (net : Net) (errs : Errs) (p : ProxyGo.ProxyServer) :
    (ProxyGo.handleConnection net errs fullSched p).2.pc = MainPc.returned := by
  cases hsel : firstHealthy p.backends 0 with
  | none => rw [proxy_handleConnection_none net errs _ p hsel]
  | some i =>
    cases hd : net.dialOk (addressAt p.backends i) with
    | false => rw [proxy_handleConnection_dial_failed net errs _ p i hsel hd]
    | true =>
      rw [proxy_handleConnection_connected net errs _ p i hsel hd]
      cases h1 : errs.copyErr 1 <;> cases h2 : errs.copyErr 2 <;>
        cases h3 : errs.closeWriteErr 1 <;> cases h4 : errs.closeWriteErr 2 <;>
        cases h5 : errs.closeErr Conn.backend <;> cases h6 : errs.closeErr Conn.client <;>
        simp [fullSched, ProxyGo.handleConnection.run, ProxyGo.handleConnection.step,
          Session.emit, h1, h2, h3, h4, h5, h6]

theorem main_lifecycle (net : Net) (sched : List Tid) (p : MainGo.ProxyServer) :
    SessionLifecycle (MainGo.getHealthyBackend p).1
      (relayDialOk net p.backends (MainGo.getHealthyBackend p).1)
      (MainGo.handleConnection net sched p).2 := by
  simp only [MainGo.getHealthyBackend]
  cases hsel : firstHealthy p.backends 0 with
  | none =>
    rw [main_handleConnection_none net _ p hsel]
    refine ⟨?_, ?_, ?_, ?_⟩ <;> simp [relayDialOk, phases, phaseOf]
  | some i =>
    cases hd : net.dialOk (addressAt p.backends i) with
    | false =>
      rw [main_handleConnection_dial_failed net _ p i hsel hd]
      refine ⟨?_, ?_, ?_, ?_⟩ <;> simp [relayDialOk, hd, phases, phaseOf]
    | true =>
      rw [main_handleConnection_connected net _ p i hsel hd]
      have hinv := main_connected_inv sched i (addressAt p.backends i)
      refine ⟨?_, ?_, ?_, ?_⟩
      · intro hret
        rw [← List.count_filter (p := isMainEvent) (by rfl),
          main_returned_trace _ _ hinv hret]
        simp
      · intro hret
        rw [← mem_filter_main _ _ (by rfl), main_returned_trace _ _ hinv hret]
        simp [relayDialOk, hd]
      · intro _ _
        exact hinv.2.2.2.2
      · intro hret
        simp only [phases, relayDialOk, hd]
        rw [← filterMap_phaseOf_main, main_returned_trace _ _ hinv hret]
        simp [phaseOf]

theorem proxy_lifecycle (net : Net) (errs : Errs) (sched : List Tid)
    (p : ProxyGo.ProxyServer) :
    SessionLifecycle (ProxyGo.getHealthyBackend p).1
      (relayDialOk net p.backends (ProxyGo.getHealthyBackend p).1)
      (ProxyGo.handleConnection net errs sched p).2 := by
  simp only [ProxyGo.getHealthyBackend]
  cases hsel : firstHealthy p.backends 0 with
  | none =>
    rw [proxy_handleConnection_none net errs _ p hsel]
    refine ⟨?_, ?_, ?_, ?_⟩ <;> rcases proxy_closeClient_cases errs with h | h <;>
      simp [relayDialOk, phases, phaseOf, h]
  | some i =>
    cases hd : net.dialOk (addressAt p.backends i) with
    | false =>
      rw [proxy_handleConnection_dial_failed net errs _ p i hsel hd]
      refine ⟨?_, ?_, ?_, ?_⟩ <;> rcases proxy_closeClient_cases errs with h | h <;>
        simp [relayDialOk, hd, phases, phaseOf, h]
    | true =>
      rw [proxy_handleConnection_connected net errs _ p i hsel hd]
      have hinv := proxy_connected_inv errs sched i (addressAt p.backends i)
      refine ⟨?_, ?_, ?_, ?_⟩
      · intro hret
        rw [← List.count_filter (p := isMainEvent) (by rfl),
          proxy_returned_trace errs _ _ hinv hret]
        cases h5 : errs.closeErr Conn.backend <;> cases h6 : errs.closeErr Conn.client <;>
          simp [ProxyGo.handleConnection.closeBackend, ProxyGo.handleConnection.closeClient,
            h5, h6]
      · intro hret
        rw [← mem_filter_main _ _ (by rfl), proxy_returned_trace errs _ _ hinv hret]
        cases h5 : errs.closeErr Conn.backend <;>
          simp [relayDialOk, hd, ProxyGo.handleConnection.closeBackend, h5]
      · intro _ _
        exact hinv.2.2.2.2
      · intro hret
        simp only [phases, relayDialOk, hd]
        rw [← filterMap_phaseOf_main, proxy_returned_trace errs _ _ hinv hret]
        cases h5 : errs.closeErr Conn.backend <;> cases h6 : errs.closeErr Conn.client <;>
          simp [phaseOf, ProxyGo.handleConnection.closeBackend,
            ProxyGo.handleConnection.closeClient, h5, h6]

/-- C9: in `main.go` and in `proxy.go`, under every network, every outcome of the socket
operations and every interleaving `sched` of the goroutines of the session: a run of
`handleConnection` that returns has closed the client connection (once) on each of its
three paths, and has closed the backend connection exactly when the dial succeeded; once
connected, no `Close` of either socket comes before the `wg.Done()` of both copy tasks;
the states gone through are INIT, CLOSED without a healthy backend, INIT,
BACKEND_SELECTED, CLOSED after a failed dial, and INIT, BACKEND_SELECTED, CONNECTED,
RELAYING, CLOSED otherwise. Under the schedule `fullSched` the run does return. -/
theorem C9_session_lifecycle (net : Net) (errs : Errs) (sched : List Tid)
    (pm : MainGo.ProxyServer) (pp : ProxyGo.ProxyServer) :
    (SessionLifecycle (MainGo.getHealthyBackend pm).1
        (relayDialOk net pm.backends (MainGo.getHealthyBackend pm).1)
        (MainGo.handleConnection net sched pm).2 ∧
      (MainGo.handleConnection net fullSched pm).2.pc = MainPc.returned) ∧
    (SessionLifecycle (ProxyGo.getHealthyBackend pp).1
        (relayDialOk net pp.backends (ProxyGo.getHealthyBackend pp).1)
        (ProxyGo.handleConnection net errs sched pp).2 ∧
      (ProxyGo.handleConnection net errs fullSched pp).2.pc = MainPc.returned) :=
  ⟨⟨main_lifecycle net sched pm, main_fullSched_returns net pm⟩,
    ⟨proxy_lifecycle net errs sched pp, proxy_fullSched_returns net errs pp⟩⟩

/-- C9 at a pool whose second backend is healthy and accepts the dial, the goroutines run
by `fullSched`: the run returns, and every `Close` in its trace comes after the
`wg.Done()` of both copy tasks. -/
theorem C9_session_lifecycle_witness :
    (MainGo.handleConnection ⟨fun _ => true, fun _ => true⟩ fullSched
        ⟨":25565", [⟨"a:1", false⟩, ⟨"b:2", true⟩],
          ⟨":25565", 5, 3, 5, ["a:1", "b:2"]⟩⟩).2.trace =
      [Event.dial 1 "b:2", Event.logOpened "b:2", Event.wgAdd 2,
        Event.go 1 Conn.client Conn.backend, Event.go 2 Conn.backend Conn.client,
        Event.copied 1 Conn.client Conn.backend, Event.wgDone 1,
        Event.copied 2 Conn.backend Conn.client, Event.wgDone 2,
        Event.wgWait, Event.logClosed, Event.close Conn.backend, Event.close Conn.client] ∧
    ClosesAfterDone (MainGo.handleConnection ⟨fun _ => true, fun _ => true⟩ fullSched
        ⟨":25565", [⟨"a:1", false⟩, ⟨"b:2", true⟩],
          ⟨":25565", 5, 3, 5, ["a:1", "b:2"]⟩⟩).2.trace :=
  ⟨by decide,
    (C9_session_lifecycle ⟨fun _ => true, fun _ => true⟩
      ⟨fun _ => false, fun _ => false, fun _ => false⟩ fullSched
      ⟨":25565", [⟨"a:1", false⟩, ⟨"b:2", true⟩], ⟨":25565", 5, 3, 5, ["a:1", "b:2"]⟩⟩
      ⟨":25565", []⟩).1.1.2.2.1 (by decide) (by decide)⟩

/-! ## Copy directions -/

theorem filter_isGo_main (t : List Event) :
    (t.filter isMainEvent).filter isGo = t.filter isGo := by
  rw [List.filter_filter]
  congr 1
  funext e
  cases e <;> rfl

theorem main_go_events (net : Net) (sched : List Tid) (p : MainGo.ProxyServer)
    (hret : (MainGo.handleConnection net sched p).2.pc = MainPc.returned)
    (hd : relayDialOk net p.backends (MainGo.getHealthyBackend p).1 = true) :
    (MainGo.handleConnection net sched p).2.trace.filter isGo =
      [Event.go 1 Conn.client Conn.backend, Event.go 2 Conn.backend Conn.client] := by
  simp only [MainGo.getHealthyBackend] at hd
  cases hsel : firstHealthy p.backends 0 with
  | none => simp [hsel, relayDialOk] at hd
  | some i =>
    simp only [hsel, relayDialOk] at hd
    rw [main_handleConnection_connected net _ p i hsel hd] at hret ⊢
    have hinv := main_connected_inv sched i (addressAt p.backends i)
    rw [← filter_isGo_main, main_returned_trace _ _ hinv hret]
    simp [isGo]

theorem proxy_go_events (net : Net) (errs : Errs) (sched : List Tid)
    (p : ProxyGo.ProxyServer)
    (hret : (ProxyGo.handleConnection net errs sched p).2.pc = MainPc.returned)
    (hd : relayDialOk net p.backends (ProxyGo.getHealthyBackend p).1 = true) :
    (ProxyGo.handleConnection net errs sched p).2.trace.filter isGo =
      [Event.go 1 Conn.backend Conn.client, Event.go 2 Conn.backend Conn.client] := by
  simp only [ProxyGo.getHealthyBackend] at hd
  cases hsel : firstHealthy p.backends 0 with
  | none => simp [hsel, relayDialOk] at hd
  | some i =>
    simp only [hsel, relayDialOk] at hd
    rw [proxy_handleConnection_connected net errs _ p i hsel hd] at hret ⊢
    have hinv := proxy_connected_inv errs sched i (addressAt p.backends i)
    rw [← filter_isGo_main, proxy_returned_trace errs _ _ hinv hret]
    cases h5 : errs.closeErr Conn.backend <;> cases h6 : errs.closeErr Conn.client <;>
      simp [isGo, ProxyGo.handleConnection.closeBackend,
        ProxyGo.handleConnection.closeClient, h5, h6]

/-- C2 at a pool whose only backend is healthy and accepts the dial, no socket operation
failing, every goroutine run to its end: `proxy.go` starts two copy tasks that both copy
from the backend connection to the client connection, none copies from the client to the
backend; `main.go`, on the same input, starts one of each direction. -/
theorem C2_proxy_starts_two_backend_to_client_copies :
    (ProxyGo.handleConnection ⟨fun _ => true, fun _ => true⟩
        ⟨fun _ => false, fun _ => false, fun _ => false⟩ fullSched
        ⟨":25565", [⟨"a:1", true⟩]⟩).2.trace.filter isGo =
      [Event.go 1 Conn.backend Conn.client, Event.go 2 Conn.backend Conn.client] ∧
    (MainGo.handleConnection ⟨fun _ => true, fun _ => true⟩ fullSched
        ⟨":25565", [⟨"a:1", true⟩], ⟨":25565", 5, 3, 5, ["a:1"]⟩⟩).2.trace.filter isGo =
      [Event.go 1 Conn.client Conn.backend, Event.go 2 Conn.backend Conn.client] := by
  decide

/-! ## Accept loop -/

theorem main_loop_dispatches (accepts : List Accepted) :
    (MainGo.Start.loop accepts).1.filter isDispatch =
      (seenAccepts accepts).filterMap (fun a => match a with
        | Accepted.conn c => some (StartEvent.goHandleConnection (some c))
        | Accepted.err _ => none) := by
  induction accepts with
  | nil => rfl
  | cons a rest ih =>
    cases a with
    | conn c => simpa [MainGo.Start.loop, seenAccepts, isDispatch] using ih
    | err cancelled =>
      cases cancelled with
      | true => simp [MainGo.Start.loop, seenAccepts, isDispatch]
      | false => simpa [MainGo.Start.loop, seenAccepts, isDispatch] using ih

theorem proxy_loop_dispatches (accepts : List Accepted) :
    (ProxyGo.Start.loop accepts).1.filter isDispatch =
      (seenAccepts accepts).filterMap (fun a => match a with
        | Accepted.conn c => some (StartEvent.goHandleConnection (some c))
        | Accepted.err _ => some (StartEvent.goHandleConnection none)) := by
  induction accepts with
  | nil => rfl
  | cons a rest ih =>
    cases a with
    | conn c => simpa [ProxyGo.Start.loop, seenAccepts, isDispatch] using ih
    | err cancelled =>
      cases cancelled with
      | true => simp [ProxyGo.Start.loop, seenAccepts, isDispatch]
      | false => simpa [ProxyGo.Start.loop, seenAccepts, isDispatch] using ih

theorem main_loop_returns (accepts : List Accepted) :
    (MainGo.Start.loop accepts).2 = StartResult.returnedNil ↔
      Accepted.err true ∈ accepts := by
  induction accepts with
  | nil => simp [MainGo.Start.loop]
  | cons a rest ih =>
    cases a with
    | conn c => simp [MainGo.Start.loop, ih]
    | err cancelled => cases cancelled <;> simp [MainGo.Start.loop, ih]

theorem proxy_loop_returns (accepts : List Accepted) :
    (ProxyGo.Start.loop accepts).2 = StartResult.returnedNil ↔
      Accepted.err true ∈ accepts := by
  induction accepts with
  | nil => simp [ProxyGo.Start.loop]
  | cons a rest ih =>
    cases a with
    | conn c => simp [ProxyGo.Start.loop, ih]
    | err cancelled => cases cancelled <;> simp [ProxyGo.Start.loop, ih]

/-- C8 at one `Accept()` that returns an error while the context is not cancelled (the
listen succeeded, one backend): `proxy.go` logs the error, then dispatches
`handleConnection` with the nil connection, then calls `Accept()` again; `main.go`, on the
same input, logs the error and calls `Accept()` again without a dispatch. -/
theorem C8_proxy_dispatches_after_failed_accept :
    ProxyGo.Start true [Accepted.err false] ⟨":25565", [⟨"a:1", false⟩]⟩ =
      ([StartEvent.listen ":25565", StartEvent.logBanner, StartEvent.logBackend 1 "a:1",
        StartEvent.goHealthCheck, StartEvent.sleep, StartEvent.goCloseOnDone,
        StartEvent.accept, StartEvent.logAcceptError, StartEvent.goHandleConnection none,
        StartEvent.accept], StartResult.accepting) ∧
    MainGo.Start true [Accepted.err false]
        ⟨":25565", [⟨"a:1", false⟩], ⟨":25565", 5, 3, 5, ["a:1"]⟩⟩ =
      ([StartEvent.listen ":25565", StartEvent.logBanner, StartEvent.logBackend 1 "a:1",
        StartEvent.goHealthCheck,
        StartEvent.accept, StartEvent.logAcceptError, StartEvent.accept],
        StartResult.accepting) := by
  decide

end GoTraffic
